import Mathlib

/-!
Verification of the fo76datamine parse/decode/store/diff pipeline.

Shallow embedding of the Python source:
  * `esm/records.py`   — `Subrecord`, `Record`, `Record.data_hash`
  * `esm/reader.py`    — `ESMReader._parse_subrecords`, `_parse_group_contents`,
                         `iter_records`
  * `esm/decoders.py`  — `_decode_ctda_conditions`, `_decode_weap`
  * `strings/loader.py`— `_parse_dlstrings`
  * `db/store.py`      — `Store.get_record_hashes`, `get_record`,
                         `get_decoded_fields`, `search_records`
  * `diff/engine.py`   — `DiffEngine.compare`, `_diff_fields`

Bytes are modelled as `List Nat` (each element a byte value), machine
integers as `Nat` with explicit `% 2^w` where overflow matters, and external
fallible steps (zlib inflation) as an explicit function parameter.
-/

set_option maxRecDepth 4000

namespace Fo76

/-! ## Byte-slice primitives -/

/-- Byte at index `i`; out-of-range reads are guarded at every call site,
mirroring `struct.unpack_from` which raises on short buffers. -/
def byteAt (data : List Nat) (i : Nat) : Nat := data.getD i 0

/-- Python slice `data[start : start+len]`. -/
def slice (data : List Nat) (start len : Nat) : List Nat :=
  (data.drop start).take len

/-- `struct.unpack_from("<H", data, off)`. -/
def readU16le (data : List Nat) (off : Nat) : Nat :=
  byteAt data off + 256 * byteAt data (off + 1)

/-- `struct.unpack_from("<I", data, off)`. -/
def readU32le (data : List Nat) (off : Nat) : Nat :=
  byteAt data off + 256 * byteAt data (off + 1) +
    65536 * byteAt data (off + 2) + 16777216 * byteAt data (off + 3)

/-- `struct.pack("<H", n)` (the source only packs values that fit in 16 bits:
subrecord sizes come from a u16 read). -/
def packU16le (n : Nat) : List Nat := [n % 256, n / 256 % 256]

/-- `struct.pack("<I", n)` for values fitting 32 bits. -/
def packU32le (n : Nat) : List Nat :=
  [n % 256, n / 256 % 256, n / 65536 % 256, n / 16777216 % 256]

/-- `bytes.rstrip(b"\x00")`. -/
def rstripNulls (bs : List Nat) : List Nat :=
  (bs.reverse.dropWhile (· = 0)).reverse

/-- One byte decoded as ASCII with replacement. -/
def asciiChar (b : Nat) : Char :=
  if b < 128 then Char.ofNat b else Char.ofNat 0xFFFD

/-- Python `bytes.decode("ascii", errors="replace")`: each byte below 0x80
becomes the corresponding character, every other byte becomes U+FFFD. -/
def decodeAsciiReplace (bs : List Nat) : String :=
  ⟨bs.map asciiChar⟩

/-- UTF-8 encoding of one code point (1–4 bytes). -/
def utf8EncodeChar (n : Nat) : List Nat :=
  if n < 0x80 then [n]
  else if n < 0x800 then [0xC0 + n / 64, 0x80 + n % 64]
  else if n < 0x10000 then [0xE0 + n / 4096, 0x80 + n / 64 % 64, 0x80 + n % 64]
  else [0xF0 + n / 262144, 0x80 + n / 4096 % 64, 0x80 + n / 64 % 64, 0x80 + n % 64]

/-- Python `str.encode("utf-8")`. -/
def utf8Encode (s : String) : List Nat :=
  s.data.foldr (fun c acc => utf8EncodeChar c.toNat ++ acc) []

/-- One step of the UTF-8 replacing decoder: given the lead byte `b` and the
remaining bytes, return the decoded character (U+FFFD on an invalid or
truncated sequence) and how many continuation bytes were consumed. -/
def utf8Step (b : Nat) (rest : List Nat) : Char × Nat :=
  let repl : Char × Nat := (Char.ofNat 0xFFFD, 0)
  if b < 0x80 then (Char.ofNat b, 0)
  else if 0xC2 ≤ b ∧ b ≤ 0xDF then
    match rest with
    | c1 :: _ =>
      if 0x80 ≤ c1 ∧ c1 ≤ 0xBF then
        (Char.ofNat ((b - 0xC0) * 64 + (c1 - 0x80)), 1)
      else repl
    | [] => repl
  else if 0xE0 ≤ b ∧ b ≤ 0xEF then
    match rest with
    | c1 :: rest1 =>
      let lo1 := if b = 0xE0 then 0xA0 else 0x80
      let hi1 := if b = 0xED then 0x9F else 0xBF
      if lo1 ≤ c1 ∧ c1 ≤ hi1 then
        match rest1 with
        | c2 :: _ =>
          if 0x80 ≤ c2 ∧ c2 ≤ 0xBF then
            (Char.ofNat ((b - 0xE0) * 4096 + (c1 - 0x80) * 64 + (c2 - 0x80)), 2)
          else (Char.ofNat 0xFFFD, 1)
        | [] => (Char.ofNat 0xFFFD, 1)
      else repl
    | [] => repl
  else if 0xF0 ≤ b ∧ b ≤ 0xF4 then
    match rest with
    | c1 :: rest1 =>
      let lo1 := if b = 0xF0 then 0x90 else 0x80
      let hi1 := if b = 0xF4 then 0x8F else 0xBF
      if lo1 ≤ c1 ∧ c1 ≤ hi1 then
        match rest1 with
        | c2 :: rest2 =>
          if 0x80 ≤ c2 ∧ c2 ≤ 0xBF then
            match rest2 with
            | c3 :: _ =>
              if 0x80 ≤ c3 ∧ c3 ≤ 0xBF then
                (Char.ofNat ((b - 0xF0) * 262144 + (c1 - 0x80) * 4096 +
                    (c2 - 0x80) * 64 + (c3 - 0x80)), 3)
              else (Char.ofNat 0xFFFD, 2)
            | [] => (Char.ofNat 0xFFFD, 2)
          else (Char.ofNat 0xFFFD, 1)
        | [] => (Char.ofNat 0xFFFD, 1)
      else repl
    | [] => repl
  else repl

/-- The replacing UTF-8 decode loop; structural in a fuel argument so that
concrete runs reduce inside the kernel. Every step consumes at least one
byte, so fuel equal to the byte count is always enough. -/
def utf8DecodeGo : Nat → List Nat → List Char
  | 0, _ => []
  | _ + 1, [] => []
  | fuel + 1, b :: rest =>
    (utf8Step b rest).1 :: utf8DecodeGo fuel (rest.drop (utf8Step b rest).2)

/-- Python `bytes.decode("utf-8", errors="replace")`: well-formed sequences
decode to their code point; each maximal invalid subpart becomes one U+FFFD. -/
def utf8DecodeReplace (bs : List Nat) : List Char :=
  utf8DecodeGo bs.length bs

/-- Decode bytes as UTF-8 with replacement into a `String`. -/
def utf8DecodeReplaceStr (bs : List Nat) : String := ⟨utf8DecodeReplace bs⟩

/-! ## SHA-256 (`hashlib.sha256`) over byte lists, arithmetic mod 2^32 -/

def sha256K : List Nat :=
  [1116352408, 1899447441, 3049323471, 3921009573, 961987163, 1508970993,
    2453635748, 2870763221, 3624381080, 310598401, 607225278, 1426881987,
    1925078388, 2162078206, 2614888103, 3248222580, 3835390401, 4022224774,
    264347078, 604807628, 770255983, 1249150122, 1555081692, 1996064986,
    2554220882, 2821834349, 2952996808, 3210313671, 3336571891, 3584528711,
    113926993, 338241895, 666307205, 773529912, 1294757372, 1396182291,
    1695183700, 1986661051, 2177026350, 2456956037, 2730485921, 2820302411,
    3259730800, 3345764771, 3516065817, 3600352804, 4094571909, 275423344,
    430227734, 506948616, 659060556, 883997877, 958139571, 1322822218,
    1537002063, 1747873779, 1955562222, 2024104815, 2227730452, 2361852424,
    2428436474, 2756734187, 3204031479, 3329325298]

def sha256H0 : List Nat :=
  [1779033703, 3144134277, 1013904242, 2773480762, 1359893119, 2600822924,
    528734635, 1541459225]

def w32 (n : Nat) : Nat := n % 4294967296

def rotr32 (x n : Nat) : Nat :=
  w32 (x / 2 ^ n + x % 2 ^ n * 2 ^ (32 - n))

def shr32 (x n : Nat) : Nat := x / 2 ^ n

def xor3 (a b c : Nat) : Nat := Nat.xor (Nat.xor a b) c

def sha256SmallSigma0 (x : Nat) : Nat := xor3 (rotr32 x 7) (rotr32 x 18) (shr32 x 3)
def sha256SmallSigma1 (x : Nat) : Nat := xor3 (rotr32 x 17) (rotr32 x 19) (shr32 x 10)
def sha256BigSigma0 (x : Nat) : Nat := xor3 (rotr32 x 2) (rotr32 x 13) (rotr32 x 22)
def sha256BigSigma1 (x : Nat) : Nat := xor3 (rotr32 x 6) (rotr32 x 11) (rotr32 x 25)

def sha256Ch (x y z : Nat) : Nat :=
  Nat.xor (Nat.land x y) (Nat.land (Nat.xor x 4294967295) z)

def sha256Maj (x y z : Nat) : Nat :=
  xor3 (Nat.land x y) (Nat.land x z) (Nat.land y z)

/-- Big-endian 32-bit word from four bytes. -/
def beWord (b0 b1 b2 b3 : Nat) : Nat :=
  b0 * 16777216 + b1 * 65536 + b2 * 256 + b3

/-- Split a padded message into 32-bit big-endian words. -/
def bytesToWords : List Nat → List Nat
  | b0 :: b1 :: b2 :: b3 :: rest => beWord b0 b1 b2 b3 :: bytesToWords rest
  | _ => []

/-- SHA-256 padding: append 0x80, zeros, and the 64-bit big-endian bit length. -/
def sha256Pad (msg : List Nat) : List Nat :=
  let len := msg.length
  let padLen := (55 + 64 - len % 64) % 64
  let bitLen := len * 8
  msg ++ 0x80 :: List.replicate padLen 0 ++
    [bitLen / 2 ^ 56 % 256, bitLen / 2 ^ 48 % 256, bitLen / 2 ^ 40 % 256,
     bitLen / 2 ^ 32 % 256, bitLen / 2 ^ 24 % 256, bitLen / 2 ^ 16 % 256,
     bitLen / 2 ^ 8 % 256, bitLen % 256]

/-- Message-schedule extension of a 16-word block to 64 words. -/
def sha256Extend (w : List Nat) : List Nat :=
  (List.range 48).foldl
    (fun acc i =>
      acc ++ [w32 (sha256SmallSigma1 (acc.getD (i + 14) 0) + acc.getD (i + 9) 0 +
        sha256SmallSigma0 (acc.getD (i + 1) 0) + acc.getD i 0)])
    w

/-- One round of the SHA-256 compression function. -/
def sha256Round (st : List Nat) (kw : Nat) : List Nat :=
  let a := st.getD 0 0
  let b := st.getD 1 0
  let c := st.getD 2 0
  let d := st.getD 3 0
  let e := st.getD 4 0
  let f := st.getD 5 0
  let g := st.getD 6 0
  let h := st.getD 7 0
  let t1 := w32 (h + sha256BigSigma1 e + sha256Ch e f g + kw)
  let t2 := w32 (sha256BigSigma0 a + sha256Maj a b c)
  [w32 (t1 + t2), a, b, c, w32 (d + t1), e, f, g]

/-- Compress one 64-byte chunk into the running hash state. -/
def sha256Chunk (h : List Nat) (chunk : List Nat) : List Nat :=
  let w := sha256Extend (bytesToWords chunk)
  let kw := List.zipWith (fun k x => w32 (k + x)) sha256K w
  let st := kw.foldl sha256Round h
  List.zipWith (fun x y => w32 (x + y)) h st

/-- Fold the compression function over consecutive 64-byte chunks. -/
def sha256Chunks (h : List Nat) : List Nat → List Nat
  | [] => h
  | b :: msg =>
    sha256Chunks (sha256Chunk h ((b :: msg).take 64)) ((b :: msg).drop 64)
termination_by msg => msg.length
decreasing_by simp; omega

/-- SHA-256 digest (32 bytes) of a byte list. -/
def sha256Bytes (msg : List Nat) : List Nat :=
  (sha256Chunks sha256H0 (sha256Pad msg)).foldr
    (fun word acc =>
      word / 16777216 % 256 :: word / 65536 % 256 :: word / 256 % 256 ::
        word % 256 :: acc) []

def hexDigit (n : Nat) : Char :=
  if n < 10 then Char.ofNat (48 + n) else Char.ofNat (87 + n)

/-- Lowercase hex of one byte. -/
def byteHex (b : Nat) : List Char := [hexDigit (b / 16), hexDigit (b % 16)]

/-- Python `bytes.hex()`: lowercase hex string of a byte list. -/
def bytesHex (bs : List Nat) : String :=
  ⟨bs.foldr (fun b acc => byteHex b ++ acc) []⟩

/-- `hashlib.sha256(...).hexdigest()`. -/
def sha256Hex (msg : List Nat) : String := bytesHex (sha256Bytes msg)

/-! ## `esm/records.py`: `Subrecord` and `Record` -/

/-- A single subrecord within an ESM record (`records.Subrecord`). -/
structure Subrecord where
  type : String
  size : Nat
  data : List Nat
deriving Repr, DecidableEq

/-- `Subrecord.as_string`. -/
def Subrecord.asString (s : Subrecord) : String :=
  utf8DecodeReplaceStr (rstripNulls s.data)

/-- `Subrecord.as_uint32` (call sites guard `size ≥ 4`). -/
def Subrecord.asUint32 (s : Subrecord) : Nat := readU32le s.data 0

/-- `Subrecord.as_formid_array`: consecutive little-endian u32 values. -/
def Subrecord.asFormidArray (s : Subrecord) : List Nat :=
  (List.range (s.data.length / 4)).map (fun i => readU32le s.data (4 * i))

/-- A parsed ESM record with its subrecords (`records.Record`; the lazily
cached `_editor_id` / `_full_name_id` / `_data_hash` attributes are pure
functions of the other fields and are modelled as functions). -/
structure Record where
  type : String
  data_size : Nat
  flags : Nat
  form_id : Nat
  revision : Nat
  version : Nat
  subrecords : List Subrecord
deriving Repr, DecidableEq

/-- `Record.is_compressed`: tests flag 0x00040000. -/
def Record.isCompressed (r : Record) : Bool :=
  r.flags / 0x40000 % 2 = 1

/-- `Record.get_subrecord`: first subrecord of the given type. -/
def Record.getSubrecord (r : Record) (subType : String) : Option Subrecord :=
  r.subrecords.find? (fun s => s.type = subType)

/-- The byte stream fed to `hashlib.sha256` by `Record.data_hash`: for each
subrecord in order, the UTF-8 bytes of its type tag, its size packed as a
little-endian u16, and its payload. -/
def dataHashInput (subs : List Subrecord) : List Nat :=
  subs.foldr (fun s acc => utf8Encode s.type ++ packU16le s.size ++ s.data ++ acc) []

/-- `Record.data_hash`: SHA-256 over all subrecord (tag, size, payload)
triples in order. -/
def Record.dataHash (r : Record) : String :=
  sha256Hex (dataHashInput r.subrecords)

/-! ## `esm/reader.py`: `ESMReader`

`zlib.decompress` is an external C library call; the reader treats it as a
black box that either yields inflated bytes or fails (`zlib.error`), so it is
modelled as a function parameter of that shape. A header read that
`struct.unpack_from` would refuse (buffer shorter than the field) is
modelled as `none` (the Python exception aborts the whole parse); fuel
exhaustion of the loops is also `none`. -/

def Inflate : Type := List Nat → Option (List Nat)

/-- `SKIP_TYPES` from `esm/constants.py`: REFR, NAVM, ACHR, PGRE, PMIS,
PHZD, PARW as byte tags. -/
def skipTypes : List (List Nat) :=
  [[82, 69, 70, 82], [78, 65, 86, 77], [65, 67, 72, 82], [80, 71, 82, 69],
   [80, 77, 73, 83], [80, 72, 90, 68], [80, 65, 82, 87]]

/-- The byte tag `b"GRUP"`. -/
def grupTag : List Nat := [71, 82, 85, 80]

/-- The byte tag `b"TES4"`. -/
def tes4Tag : List Nat := [84, 69, 83, 52]

/-- `ESMReader._parse_subrecords` loop from a given offset: reads 6-byte
subrecord headers while they fit, stops as soon as a declared size overruns
the payload, keeping everything parsed so far. Structural in a fuel
argument (each iteration consumes at least 6 bytes, so `data.length + 1`
fuel always suffices) so concrete runs reduce inside the kernel. -/
def parseSubsFrom (data : List Nat) : Nat → Nat → List Subrecord
  | 0, _ => []
  | fuel + 1, offset =>
    if offset + 6 ≤ data.length then
      if offset + 6 + readU16le data (offset + 4) ≤ data.length then
        ⟨decodeAsciiReplace (slice data offset 4), readU16le data (offset + 4),
          slice data (offset + 6) (readU16le data (offset + 4))⟩ ::
          parseSubsFrom data fuel (offset + 6 + readU16le data (offset + 4))
      else []
    else []

/-- `ESMReader._parse_subrecords`. -/
def parseSubrecords (data : List Nat) : List Subrecord :=
  parseSubsFrom data (data.length + 1) 0

/-- The `Record` assembled at `pos` from a (possibly inflated) payload. -/
def mkParsedRecord (data : List Nat) (pos : Nat) (payload : List Nat) : Record :=
  ⟨decodeAsciiReplace (rstripNulls (slice data pos 4)), readU32le data (pos + 4),
    readU32le data (pos + 8), readU32le data (pos + 12), readU32le data (pos + 16),
    readU16le data (pos + 20), parseSubrecords payload⟩

/-- `ESMReader._parse_group_contents`: walk records within `[pos, stop)`,
recursing into sub-groups; skip types 8/9 groups and skip-type records;
inflate compressed payloads after the leading u32 `decomp_size` (which the
source reads but never compares with the inflated length); drop records
whose compressed payload is shorter than 4 bytes or fails to inflate. -/
def parseGroupContents (inflate : Inflate) (skip : List (List Nat))
    (data : List Nat) : Nat → Nat → Nat → Option (List Record)
  | 0, _, _ => none
  | fuel + 1, pos, stop =>
    if pos < stop then
      if pos + 4 > stop then some [] else
      if slice data pos 4 = grupTag then
        -- sub-group
        if pos + 24 > stop then some [] else
        if pos + 24 > data.length then none else
        if readU32le data (pos + 12) = 8 ∨ readU32le data (pos + 12) = 9 then
          -- CELL persistent/temporary children: placement refs, skipped
          parseGroupContents inflate skip data fuel (pos + readU32le data (pos + 4)) stop
        else
          Option.bind
            (parseGroupContents inflate skip data fuel (pos + 24)
              (pos + readU32le data (pos + 4)))
            (fun inner =>
              Option.bind
                (parseGroupContents inflate skip data fuel
                  (pos + readU32le data (pos + 4)) stop)
                (fun rest => some (inner ++ rest)))
      else
        -- record
        if pos + 24 > stop then some [] else
        if pos + 24 > data.length then none else
        if rstripNulls (slice data pos 4) ∈ skip then
          parseGroupContents inflate skip data fuel
            (pos + 24 + readU32le data (pos + 4)) stop
        else
          if pos + 24 + readU32le data (pos + 4) > stop then some [] else
          if readU32le data (pos + 8) / 0x40000 % 2 = 1 then
            if (slice data (pos + 24) (readU32le data (pos + 4))).length < 4 then
              parseGroupContents inflate skip data fuel
                (pos + 24 + readU32le data (pos + 4)) stop
            else
              match inflate ((slice data (pos + 24) (readU32le data (pos + 4))).drop 4) with
              | none =>
                parseGroupContents inflate skip data fuel
                  (pos + 24 + readU32le data (pos + 4)) stop
              | some inflated =>
                Option.bind
                  (parseGroupContents inflate skip data fuel
                    (pos + 24 + readU32le data (pos + 4)) stop)
                  (fun rest => some (mkParsedRecord data pos inflated :: rest))
          else
            Option.bind
              (parseGroupContents inflate skip data fuel
                (pos + 24 + readU32le data (pos + 4)) stop)
              (fun rest =>
                some (mkParsedRecord data pos
                  (slice data (pos + 24) (readU32le data (pos + 4))) :: rest))
    else some []

/-- The top-level loop of `ESMReader.iter_records`: iterate top-level GRUPs,
skipping groups of type 0 whose label is a skip type. -/
def iterTopGroups (inflate : Inflate) (skip : List (List Nat))
    (data : List Nat) : Nat → Nat → Option (List Record)
  | 0, _ => none
  | fuel + 1, pos =>
    if pos < data.length then
      if pos + 24 > data.length then some [] else
      if slice data pos 4 ≠ grupTag then some [] else
      if readU32le data (pos + 12) = 0 ∧ slice data (pos + 8) 4 ∈ skip then
        iterTopGroups inflate skip data fuel (pos + readU32le data (pos + 4))
      else
        Option.bind
          (parseGroupContents inflate skip data fuel (pos + 24)
            (pos + readU32le data (pos + 4)))
          (fun inner =>
            Option.bind
              (iterTopGroups inflate skip data fuel (pos + readU32le data (pos + 4)))
              (fun rest => some (inner ++ rest)))
    else some []

/-- `ESMReader.iter_records`: check the TES4 magic, skip the TES4 header
record, then walk the top-level groups. -/
def iterRecords (inflate : Inflate) (skip : List (List Nat))
    (data : List Nat) (fuel : Nat) : Option (List Record) :=
  if slice data 0 4 ≠ tes4Tag then none
  else if 24 > data.length then none
  else iterTopGroups inflate skip data fuel (24 + readU32le data 4)

/-! ## Serialization helpers used to state parser claims -/

/-- An unserialized subrecord: a 4-byte tag plus payload bytes. -/
structure RawSub where
  tag : List Nat
  payload : List Nat
deriving Repr, DecidableEq

/-- Well formed: 4-byte tag, payload size fits the u16 size field. -/
def RawSub.wf (s : RawSub) : Prop :=
  s.tag.length = 4 ∧ s.payload.length < 65536

instance : DecidablePred RawSub.wf := fun s => by
  unfold RawSub.wf; infer_instance

/-- On-disk bytes of one subrecord: tag, u16 size, payload. -/
def RawSub.bytes (s : RawSub) : List Nat :=
  s.tag ++ packU16le s.payload.length ++ s.payload

/-- The `Subrecord` the parser produces for these bytes. -/
def RawSub.toSubrecord (s : RawSub) : Subrecord :=
  ⟨decodeAsciiReplace s.tag, s.payload.length, s.payload⟩

/-- On-disk bytes of a subrecord list. -/
def rawSubsBytes (l : List RawSub) : List Nat :=
  (l.map RawSub.bytes).flatten

/-- A concrete miniature master archive: TES4 header, one WEAP top-level
group holding one empty WEAP record. -/
def demoEsmBytes : List Nat :=
  [84, 69, 83, 52, 0, 0, 0, 0, 0, 0, 0, 0, 0, 0, 0, 0, 0, 0, 0, 0, 0, 0, 0, 0] ++
  [71, 82, 85, 80, 48, 0, 0, 0, 87, 69, 65, 80, 0, 0, 0, 0, 0, 0, 0, 0, 0, 0, 0, 0] ++
  [87, 69, 65, 80, 0, 0, 0, 0, 0, 0, 0, 0, 16, 0, 0, 0, 0, 0, 0, 0, 44, 1, 0, 0]

/-- A degenerate inflate function for concrete runs with no compressed
records. -/
def inflateNone : Inflate := fun _ => none

/-- An inflate function that maps every compressed stream to the two bytes
`b"AB"`; real zlib behaves this way on the stored-block stream
78 01 01 02 00 FD FF 41 42 00 C6 00 84. -/
def inflateAB : Inflate := fun _ => some [65, 66]

/-- A miniature master archive holding one compressed WEAP record whose
payload declares an uncompressed size of 999 followed by the 13-byte zlib
stream that inflates to the 2 bytes `b"AB"`. -/
def c2EsmBytes : List Nat :=
  [84, 69, 83, 52, 0, 0, 0, 0, 0, 0, 0, 0, 0, 0, 0, 0, 0, 0, 0, 0, 0, 0, 0, 0] ++
  [71, 82, 85, 80, 65, 0, 0, 0, 87, 69, 65, 80, 0, 0, 0, 0, 0, 0, 0, 0, 0, 0, 0, 0] ++
  [87, 69, 65, 80, 17, 0, 0, 0, 0, 0, 4, 0, 1, 0, 0, 0, 0, 0, 0, 0, 44, 1, 0, 0] ++
  [231, 3, 0, 0] ++
  [120, 1, 1, 2, 0, 253, 255, 65, 66, 0, 198, 0, 132]

/-! ## Number formatting (Python `str`, `f"{x:.Nf}"`, `f"0x{x:08X}"`) -/

/-- Decimal digits of `n` (most significant first); fuel-structural, `n`
itself is always enough fuel. -/
def natDigits : Nat → Nat → List Char
  | 0, _ => []
  | _ + 1, 0 => []
  | fuel + 1, n => natDigits fuel (n / 10) ++ [Char.ofNat (48 + n % 10)]

/-- Python `str` of a non-negative integer. -/
def natToStr (n : Nat) : String :=
  if n = 0 then "0" else ⟨natDigits n n⟩

/-- Python `str` of a signed integer. -/
def intToStr (i : Int) : String :=
  if i < 0 then "-" ++ natToStr i.natAbs else natToStr i.natAbs

/-- Uppercase hex digits of `n` (most significant first). -/
def natHexDigitsU : Nat → Nat → List Char
  | 0, _ => []
  | _ + 1, 0 => []
  | fuel + 1, n =>
    natHexDigitsU fuel (n / 16) ++
      [if n % 16 < 10 then Char.ofNat (48 + n % 16) else Char.ofNat (55 + n % 16)]

/-- Python `f"0x{n:08X}"` for a u32 value. -/
def hex8 (n : Nat) : String :=
  let ds := if n = 0 then ['0'] else natHexDigitsU n n
  "0x" ++ ⟨List.replicate (8 - ds.length) '0' ++ ds⟩

/-- Round `num / den` to the nearest integer, ties to even (the rounding
CPython's fixed-point float formatting performs). -/
def roundHalfEven (num den : Nat) : Nat :=
  let q := num / den
  let r := num % den
  if 2 * r > den then q + 1
  else if 2 * r < den then q
  else if q % 2 = 1 then q + 1 else q

/-- Decimal digits of `n` left-padded with zeros to `p` places. -/
def padDigits (n p : Nat) : List Char :=
  let ds := if n = 0 then ['0'] else natDigits n n
  List.replicate (p - ds.length) '0' ++ ds

/-- Python `f"{x:.pf}"` where `x` is the double obtained by
`struct.unpack("<f", ...)` from the 32-bit pattern `bits`: the exact binary
value is converted to `p` decimal places with correct rounding (ties to
even), which is exactly what CPython's fixed-precision format does. -/
def formatF32 (bits p : Nat) : String :=
  let sign := bits / 2 ^ 31 % 2
  let exp := bits / 2 ^ 23 % 256
  let frac := bits % 2 ^ 23
  if exp = 255 then
    if frac = 0 then (if sign = 1 then "-inf" else "inf") else "nan"
  else
    let m := if exp = 0 then frac else 2 ^ 23 + frac
    let effExp := if exp = 0 then 1 else exp
    let scaled :=
      if effExp ≥ 150 then m * 2 ^ (effExp - 150) * 10 ^ p
      else roundHalfEven (m * 10 ^ p) (2 ^ (150 - effExp))
    (if sign = 1 then "-" else "") ++ natToStr (scaled / 10 ^ p) ++ "." ++
      ⟨padDigits (scaled % 10 ^ p) p⟩

/-- `struct.unpack_from("<f", d, off)` followed by `f"{x:.pf}"`. -/
def readF32Str (d : List Nat) (off p : Nat) : String :=
  formatF32 (readU32le d off) p

/-! ## `esm/enums.py` and the condition helpers

`esm/conditions.py` is imported by `esm/decoders.py` but is not present in
the source tree; the helpers it exports are modelled from the spec. -/

/-- `enums.lookup_enum`: human-readable name, or `str(value)` for unknowns. -/
def lookup_enum (table : List (Nat × String)) (v : Nat) : String :=
  match table.find? (fun e => e.1 = v) with
  | some e => e.2
  | none => natToStr v

/-- `enums.WEAP_ANIMATION_TYPE`. -/
def WEAP_ANIMATION_TYPE : List (Nat × String) :=
  [(0, "hand_to_hand"), (1, "melee_1h"), (2, "melee_2h"), (3, "pistol_ballistic"),
   (4, "pistol_automatic"), (5, "rifle_ballistic"), (6, "rifle_automatic"),
   (7, "shotgun"), (8, "thrown"), (9, "mine"), (10, "bow"), (11, "crossbow"),
   (12, "cryolator")]

/-- `enums.WEAP_SOUND_LEVEL`. -/
def WEAP_SOUND_LEVEL : List (Nat × String) :=
  [(0, "loud"), (1, "normal"), (2, "silent"), (3, "very_loud")]

/-- Modelled from the spec: `conditions.operator_str` (file
`esm/conditions.py` missing from the tree). §4.F: the operator is one of
`==`, `!=`, `>`, `>=`, `<`, `<=` derived from the op byte's low bits. -/
def operator_str (op : Nat) : String :=
  match op % 8 with
  | 0 => "=="
  | 1 => "!="
  | 2 => ">"
  | 3 => ">="
  | 4 => "<"
  | 5 => "<="
  | _ => "=="

/-- Modelled from the spec: `conditions.function_name` resolves a function
index via a fixed function table (table contents unspecified; unknown
indices fall back to a decimal-bearing name). -/
def function_name (idx : Nat) : String :=
  "Function_" ++ natToStr idx

/-- Modelled from the spec: `conditions.run_on_str` renders the run-on
enum. -/
def run_on_str (v : Nat) : String :=
  "RunOn_" ++ natToStr v

/-- Modelled from the spec: `conditions.format_condition_summary` renders a
human-readable one-liner from the numeric components. -/
def format_condition_summary (funcIdx op compBits : Nat) : String :=
  function_name funcIdx ++ " " ++ operator_str op ++ " " ++ formatF32 compBits 6

/-! ## `esm/decoders.py`: `_decode_ctda_conditions` and `_decode_weap`

A decoded field row is the tuple `(form_id, field_name, field_value,
field_type)` appended by the decoders. -/

/-- Walk subrecords in order, linking each CTDA with its trailing CIS1/CIS2
string parameters (the stateful loop at the top of
`_decode_ctda_conditions`). -/
def ctdaGroupsGo : List Subrecord →
    Option (Subrecord × Option String × Option String) →
    List (Subrecord × Option String × Option String)
  | [], none => []
  | [], some g => [g]
  | sub :: rest, cur =>
    if sub.type = "CTDA" then
      match cur with
      | none => ctdaGroupsGo rest (some (sub, none, none))
      | some g => g :: ctdaGroupsGo rest (some (sub, none, none))
    else if sub.type = "CIS1" then
      match cur with
      | none => ctdaGroupsGo rest none
      | some (c, _, c2) =>
        ctdaGroupsGo rest (some (c, some (utf8DecodeReplaceStr (rstripNulls sub.data)), c2))
    else if sub.type = "CIS2" then
      match cur with
      | none => ctdaGroupsGo rest none
      | some (c, c1, _) =>
        ctdaGroupsGo rest (some (c, c1, some (utf8DecodeReplaceStr (rstripNulls sub.data))))
    else ctdaGroupsGo rest cur

/-- The fields emitted for the `i`-th CTDA group. -/
def ctdaGroupFields (fid i : Nat)
    (g : Subrecord × Option String × Option String) : List (Nat × String × String × String) :=
  let ctda := g.1
  let cis1 := g.2.1
  let cis2 := g.2.2
  let d := ctda.data
  let pfx := "condition_" ++ natToStr i
  let opByte := if 1 ≤ ctda.size then byteAt d 0 else 0
  let compBits := if 8 ≤ ctda.size then readU32le d 4 else 0
  let funcIdx := if 10 ≤ ctda.size then readU16le d 8 else 0
  let param1 := if 16 ≤ ctda.size then readU32le d 12 else 0
  let param2 := if 20 ≤ ctda.size then readU32le d 16 else 0
  let runOn := if 24 ≤ ctda.size then readU32le d 20 else 0
  let refFid := if 28 ≤ ctda.size then readU32le d 24 else 0
  [(fid, pfx ++ "_raw", bytesHex d, "str"),
   (fid, pfx ++ "_function", natToStr funcIdx, "int"),
   (fid, pfx ++ "_function_name", function_name funcIdx, "str"),
   (fid, pfx ++ "_operator", operator_str opByte, "str")] ++
  (if 8 ≤ ctda.size then [(fid, pfx ++ "_comparison", formatF32 compBits 6, "float")] else []) ++
  (if 16 ≤ ctda.size then [(fid, pfx ++ "_param1_hex", hex8 param1, "str")] else []) ++
  (match cis1 with
   | some s => if s ≠ "" then [(fid, pfx ++ "_param1_string", s, "str")] else []
   | none => []) ++
  (if 20 ≤ ctda.size then [(fid, pfx ++ "_param2_hex", hex8 param2, "str")] else []) ++
  (match cis2 with
   | some s => if s ≠ "" then [(fid, pfx ++ "_param2_string", s, "str")] else []
   | none => []) ++
  (if 24 ≤ ctda.size then [(fid, pfx ++ "_run_on", run_on_str runOn, "str")] else []) ++
  (if 28 ≤ ctda.size ∧ refFid ≠ 0 ∧ refFid ≠ 0xFFFFFFFF then
    [(fid, pfx ++ "_reference", hex8 refFid, "formid")] else []) ++
  (if 10 ≤ ctda.size then
    [(fid, pfx ++ "_summary", format_condition_summary funcIdx opByte compBits, "str")]
  else [])

/-- `decoders._decode_ctda_conditions`. -/
def decode_ctda_conditions (rec : Record) : List (Nat × String × String × String) :=
  let groups := ctdaGroupsGo rec.subrecords none
  if groups = [] then []
  else
    (rec.form_id, "condition_count", natToStr groups.length, "int") ::
      (groups.enum.map (fun p => ctdaGroupFields rec.form_id p.1 p.2)).flatten

/-- `decoders._decode_weap`: WEAP record fields from DNAM (≥170 B),
CRDT (≥12 B) and the DAMA pair array (≥8 B). -/
def decode_weap (rec : Record) : List (Nat × String × String × String) :=
  (match rec.getSubrecord "DNAM" with
   | some dnam =>
     if 170 ≤ dnam.size then
       [(rec.form_id, "animation_type",
          lookup_enum WEAP_ANIMATION_TYPE (readU32le dnam.data 0), "enum"),
        (rec.form_id, "speed", readF32Str dnam.data 4 4, "float"),
        (rec.form_id, "reach", readF32Str dnam.data 8 4, "float"),
        (rec.form_id, "min_range", readF32Str dnam.data 24 1, "float"),
        (rec.form_id, "max_range", readF32Str dnam.data 28 1, "float"),
        (rec.form_id, "attack_delay", readF32Str dnam.data 32 4, "float"),
        (rec.form_id, "out_of_range_dmg_mult", readF32Str dnam.data 44 4, "float"),
        (rec.form_id, "secondary_damage", readF32Str dnam.data 48 4, "float"),
        (rec.form_id, "weight", readF32Str dnam.data 52 2, "float"),
        (rec.form_id, "value", natToStr (readU32le dnam.data 56), "int"),
        (rec.form_id, "damage", readF32Str dnam.data 60 1, "float"),
        (rec.form_id, "num_projectiles", natToStr (byteAt dnam.data 101), "int"),
        (rec.form_id, "sound_level",
          lookup_enum WEAP_SOUND_LEVEL (readU32le dnam.data 112), "enum")]
     else []
   | none => []) ++
  (match rec.getSubrecord "CRDT" with
   | some crdt =>
     if 12 ≤ crdt.size then
       [(rec.form_id, "crit_damage", readF32Str crdt.data 0 1, "float"),
        (rec.form_id, "crit_multiplier", readF32Str crdt.data 4 4, "float")]
     else []
   | none => []) ++
  (match rec.getSubrecord "DAMA" with
   | some dama =>
     if 8 ≤ dama.size then
       ((List.range (dama.size / 8)).map (fun i =>
         [(rec.form_id, "damage_type_" ++ natToStr i ++ "_id",
            hex8 (readU32le dama.data (i * 8)), "formid"),
          (rec.form_id, "damage_type_" ++ natToStr i ++ "_value",
            readF32Str dama.data (i * 8 + 4) 1, "float")])).flatten
     else []
   | none => [])

/-! ## Python dict and sorting helpers -/

/-- Python dict assignment `m[k] = v`: replace in place if the key exists,
append otherwise (insertion order preserved). -/
def dictUpd {β : Type} (k : Nat) (v : β) : List (Nat × β) → List (Nat × β)
  | [] => [(k, v)]
  | (k₀, v₀) :: rest =>
    if k₀ = k then (k, v) :: rest else (k₀, v₀) :: dictUpd k v rest

/-- Python `dict(pairs)`: later pairs overwrite earlier ones. -/
def pyDict {β : Type} (l : List (Nat × β)) : List (Nat × β) :=
  l.foldl (fun m kv => dictUpd kv.1 kv.2 m) []

/-- Python dict string assignment (string keys). -/
def dictUpdS {β : Type} (k : String) (v : β) : List (String × β) → List (String × β)
  | [] => [(k, v)]
  | (k₀, v₀) :: rest =>
    if k₀ = k then (k, v) :: rest else (k₀, v₀) :: dictUpdS k v rest

/-- Python `dict(pairs)` with string keys. -/
def pyDictS {β : Type} (l : List (String × β)) : List (String × β) :=
  l.foldl (fun m kv => dictUpdS kv.1 kv.2 m) []

/-- `m.get(k)` on an association-list dict. -/
def dictGet {β : Type} (k : Nat) (m : List (Nat × β)) : Option β :=
  (m.find? (fun kv => kv.1 = k)).map (fun kv => kv.2)

/-- `m.get(k)` with string keys. -/
def dictGetS {β : Type} (k : String) (m : List (String × β)) : Option β :=
  (m.find? (fun kv => kv.1 = k)).map (fun kv => kv.2)

/-- `m.keys()`. -/
def dictKeys {β : Type} (m : List (Nat × β)) : List Nat :=
  m.map (fun kv => kv.1)

/-- `m.keys()` with string keys. -/
def dictKeysS {β : Type} (m : List (String × β)) : List String :=
  m.map (fun kv => kv.1)

/-- Python `sorted` on integers (ascending). -/
def sortNat (l : List Nat) : List Nat :=
  l.insertionSort (· ≤ ·)

/-- Lexicographic comparison of character lists by code point, mirroring
both Python string comparison and SQLite's binary text collation. -/
def charsLe : List Char → List Char → Bool
  | [], _ => true
  | _ :: _, [] => false
  | a :: as_, b :: bs =>
    if a.toNat < b.toNat then true
    else if b.toNat < a.toNat then false
    else charsLe as_ bs

/-- `a <= b` on strings. -/
def strLe (a b : String) : Bool := charsLe a.data b.data

/-- Python `sorted` on strings. -/
def sortStr (l : List String) : List String :=
  l.insertionSort (fun a b => strLe a b = true)

/-! ## `strings/loader.py`: `_parse_dlstrings` -/

/-- `loader._parse_dlstrings`: parse a `.dlstrings`/`.ilstrings` blob into
an id → text mapping. A file shorter than 8 bytes yields the empty mapping;
a directory that overruns the buffer makes the batch `struct.unpack_from`
raise, modelled as `none`. Per entry, text is the u32-length-prefixed bytes
at the entry's offset into the data section, with trailing NULs stripped,
decoded as UTF-8 with replacement; entries whose length field does not fit
are skipped. -/
def parse_dlstrings (data : List Nat) : Option (List (Nat × String)) :=
  if data.length < 8 then some []
  else if 8 + readU32le data 0 * 8 > data.length then none
  else
    some ((List.range (readU32le data 0)).foldl
      (fun entries i =>
        if 8 + readU32le data 0 * 8 + readU32le data (8 + 8 * i + 4) + 4 >
            data.length then entries
        else
          dictUpd (readU32le data (8 + 8 * i))
            (utf8DecodeReplaceStr (rstripNulls
              (slice data
                (8 + readU32le data 0 * 8 + readU32le data (8 + 8 * i + 4) + 4)
                (readU32le data (8 + readU32le data 0 * 8 +
                  readU32le data (8 + 8 * i + 4))))))
            entries)
      [])

/-- The bytes of a well-formed `.dlstrings` file with a single directory
entry: count 1, declared data size, one directory pair (id, offset 0), then
the u32 length of the payload and the payload itself. -/
def mkDlstrings (sid dsz : Nat) (payload : List Nat) : List Nat :=
  packU32le 1 ++ (packU32le dsz ++ (packU32le sid ++ (packU32le 0 ++
    (packU32le payload.length ++ payload))))

/-! ## `db/models.py`, `db/store.py` and `diff/engine.py` -/

/-- `models.DbRecord`: one row of the `records` table. -/
structure DbRecord where
  snapshot_id : Nat
  form_id : Nat
  record_type : String
  editor_id : Option String
  full_name : Option String
  full_name_id : Option Nat
  desc_text : Option String
  desc_id : Option Nat
  data_hash : String
  flags : Nat
  data_size : Nat
deriving Repr, DecidableEq

/-- `models.DecodedField`: one row of the `decoded_fields` table. -/
structure DecodedField where
  snapshot_id : Nat
  form_id : Nat
  field_name : String
  field_value : String
  field_type : String
deriving Repr, DecidableEq

/-- `models.FieldChange`: the dataclass as declared in `db/models.py`, with
exactly four fields. The diff engine's constructor call passes an extra
`field_type=` keyword this dataclass does not accept, so that call raises
`TypeError` (see `diff_fields`). -/
structure FieldChange where
  form_id : Nat
  field_name : String
  old_value : Option String
  new_value : Option String
deriving Repr, DecidableEq

/-- The relational store, modelled as the row lists of the two tables the
diff engine reads; list order is table scan order. -/
structure Store where
  records : List DbRecord
  decoded_fields : List DecodedField

/-- `Store.get_record_hashes`: `SELECT form_id, data_hash ... WHERE
snapshot_id=?`, collected into a Python dict. -/
def Store.get_record_hashes (st : Store) (sid : Nat) : List (Nat × String) :=
  pyDict ((st.records.filter (fun r => r.snapshot_id = sid)).map
    (fun r => (r.form_id, r.data_hash)))

/-- `Store.get_record`: point query by `(snapshot_id, form_id)`,
`fetchone`. -/
def Store.get_record (st : Store) (sid fid : Nat) : Option DbRecord :=
  st.records.find? (fun r => r.snapshot_id = sid ∧ r.form_id = fid)

/-- `Store.get_decoded_fields`. -/
def Store.get_decoded_fields (st : Store) (sid fid : Nat) : List DecodedField :=
  st.decoded_fields.filter (fun f => f.snapshot_id = sid ∧ f.form_id = fid)

/-- `DiffEngine._diff_fields`: field-name-keyed dicts for both versions,
then a loop over the sorted union of names. For every name whose values
differ the source computes `ft` ("prefer the new field_type, fall back to
old") and constructs `FieldChange(form_id=..., field_name=..., old_value=...,
new_value=..., field_type=ft)` — but `models.FieldChange` accepts no
`field_type` argument, so that construction raises `TypeError` (modelled as
`none`). A call therefore either returns `some []` (no differing name) or
raises at the first differing name; a nonempty change list is unreachable. -/
def diff_fields (store new_store : Store) (old_id new_id form_id : Nat) :
    Option (List FieldChange) :=
  let oldFields := pyDictS ((store.get_decoded_fields old_id form_id).map
    (fun f => (f.field_name, (f.field_value, f.field_type))))
  let newFields := pyDictS ((new_store.get_decoded_fields new_id form_id).map
    (fun f => (f.field_name, (f.field_value, f.field_type))))
  let allNames := sortStr ((dictKeysS oldFields ++ dictKeysS newFields).dedup)
  allNames.foldl
    (fun acc name =>
      acc.bind (fun changes =>
        if ((dictGetS name oldFields).map (fun p => p.1) : Option String) ≠
            ((dictGetS name newFields).map (fun p => p.1) : Option String) then
          -- FieldChange(..., field_type=ft) raises TypeError here
          none
        else some changes))
    (some [])

/-- `DiffResult` as populated by `DiffEngine.compare`. -/
structure DiffResult where
  old_snapshot_id : Nat
  new_snapshot_id : Nat
  added : List DbRecord
  removed : List DbRecord
  modified : List (DbRecord × DbRecord)
  field_changes : List (Nat × List FieldChange)
deriving Repr, DecidableEq

/-- The `added` list of `DiffEngine.compare`: new ids minus old ids in
ascending order, each record fetched from the new store, kept under the
optional record-type filter. -/
def compareAdded (store new_store : Store) (old_id new_id : Nat)
    (record_type : Option String) : List DbRecord :=
  (sortNat ((dictKeys (new_store.get_record_hashes new_id)).filter
      (fun f => ¬ f ∈ dictKeys (store.get_record_hashes old_id)))).filterMap
    (fun fid =>
      match new_store.get_record new_id fid with
      | some r =>
        if record_type = none ∨ record_type = some r.record_type then some r
        else none
      | none => none)

/-- The `removed` list of `DiffEngine.compare`: old ids minus new ids in
ascending order, each record fetched from the old store. -/
def compareRemoved (store new_store : Store) (old_id new_id : Nat)
    (record_type : Option String) : List DbRecord :=
  (sortNat ((dictKeys (store.get_record_hashes old_id)).filter
      (fun f => ¬ f ∈ dictKeys (new_store.get_record_hashes new_id)))).filterMap
    (fun fid =>
      match store.get_record old_id fid with
      | some r =>
        if record_type = none ∨ record_type = some r.record_type then some r
        else none
      | none => none)

/-- The modified pairs of `DiffEngine.compare`, with their loop form id:
ids in both snapshots, in ascending order, whose hashes differ and whose
two point lookups both succeed, under the record-type filter. -/
def compareModPairs (store new_store : Store) (old_id new_id : Nat)
    (record_type : Option String) : List (Nat × DbRecord × DbRecord) :=
  (sortNat ((dictKeys (store.get_record_hashes old_id)).filter
      (fun f => f ∈ dictKeys (new_store.get_record_hashes new_id)))).filterMap
    (fun fid =>
      if dictGet fid (store.get_record_hashes old_id) ≠
          dictGet fid (new_store.get_record_hashes new_id) then
        match store.get_record old_id fid, new_store.get_record new_id fid with
        | some o, some n =>
          if record_type = none ∨ record_type = some o.record_type then
            some (fid, o, n)
          else none
        | _, _ => none
      else none)

/-- `DiffEngine.compare`: hash maps for both snapshots; added = new ids
minus old ids, removed = old minus new, modified = intersection with
differing hashes; each category iterated in ascending form-id order;
records fetched from the store owning their snapshot; optional record-type
filter. The modified loop calls `_diff_fields` for every appended pair and
stores nonempty change lists keyed by form id; when `_diff_fields` raises
(see its doc) the whole `compare` call raises, modelled as `none`. -/
def compare (store new_store : Store) (old_id new_id : Nat)
    (record_type : Option String) : Option DiffResult :=
  ((compareModPairs store new_store old_id new_id record_type).foldl
    (fun acc t =>
      acc.bind (fun fcs =>
        (diff_fields store new_store old_id new_id t.1).map (fun changes =>
          if changes ≠ [] then fcs ++ [(t.1, changes)] else fcs)))
    (some [])).map
    (fun fieldChanges =>
      ⟨old_id, new_id,
        compareAdded store new_store old_id new_id record_type,
        compareRemoved store new_store old_id new_id record_type,
        (compareModPairs store new_store old_id new_id record_type).map
          (fun t => (t.2.1, t.2.2)),
        fieldChanges⟩)

/-- A store holding two snapshots that differ in one record's hash and in
one decoded field value: snapshot 1 has form id 5 with hash "aa" and
damage "10.0", snapshot 2 has form id 5 with hash "bb" and damage "12.0". -/
def c5Store : Store :=
  ⟨[⟨1, 5, "WEAP", some "TestGun", none, none, none, none, "aa", 0, 0⟩,
    ⟨2, 5, "WEAP", some "TestGun", none, none, none, none, "bb", 0, 0⟩],
   [⟨1, 5, "damage", "10.0", "float"⟩,
    ⟨2, 5, "damage", "12.0", "float"⟩]⟩

/-! ## `Store.search_records` -/

/-- ASCII lowercasing, the case folding SQLite's default `LIKE` applies. -/
def lowerAscii (c : Char) : Char :=
  if 65 ≤ c.toNat ∧ c.toNat ≤ 90 then Char.ofNat (c.toNat + 32) else c

/-- SQL `LIKE` matching over characters: `%` matches any run, `_` any one
character, anything else itself. -/
def likeChars : List Char → List Char → Bool
  | [], [] => true
  | [], _ :: _ => false
  | '%' :: ps, t =>
    likeChars ps t ||
      (match t with
       | [] => false
       | _ :: ts => likeChars ('%' :: ps) ts)
  | '_' :: ps, t =>
    (match t with
     | [] => false
     | _ :: ts => likeChars ps ts)
  | p :: ps, t =>
    (match t with
     | [] => false
     | c :: ts => p = c && likeChars ps ts)
termination_by ps t => ps.length + t.length

/-- SQLite `text LIKE pattern` (default case-insensitive ASCII collation). -/
def sqlLike (pattern text : String) : Bool :=
  likeChars (pattern.data.map lowerAscii) (text.data.map lowerAscii)

/-- The glob → LIKE rewriting `search_records` applies to `edid_pattern`:
`*` becomes `%` and `?` becomes `_`. -/
def globToLike (pat : String) : String :=
  ⟨pat.data.map (fun c => if c = '*' then '%' else if c = '?' then '_' else c)⟩

/-- Digits of the given base parsed from characters (none on an invalid or
empty digit run). -/
def parseDigitsBase (base : Nat) : List Char → Option Nat → Option Nat
  | [], acc => acc
  | c :: cs, acc =>
    let d :=
      if 48 ≤ c.toNat ∧ c.toNat ≤ 57 then some (c.toNat - 48)
      else if 97 ≤ c.toNat ∧ c.toNat ≤ 102 then some (c.toNat - 87)
      else if 65 ≤ c.toNat ∧ c.toNat ≤ 70 then some (c.toNat - 55)
      else none
    match d with
    | some d =>
      if d < base then parseDigitsBase base cs (some ((acc.getD 0) * base + d))
      else none
    | none => none

/-- Python `int(s, 16)` on the already-sign-stripped characters: an
optional `0x`/`0X` prefix, then hex digits. (Whitespace trimming and digit
underscores accepted by Python are not modelled; they do not affect the
result-cap property.) -/
def pyIntHex : List Char → Option Nat
  | '0' :: 'x' :: cs => parseDigitsBase 16 cs none
  | '0' :: 'X' :: cs => parseDigitsBase 16 cs none
  | cs => parseDigitsBase 16 cs none

/-- Python `int(s, 0)` on the already-sign-stripped characters: `0x`/`0o`/
`0b` prefixes select the base; a bare `0` run is zero; decimal otherwise,
rejecting leading zeros. -/
def pyIntAuto : List Char → Option Nat
  | '0' :: 'x' :: cs => parseDigitsBase 16 cs none
  | '0' :: 'X' :: cs => parseDigitsBase 16 cs none
  | '0' :: 'o' :: cs => parseDigitsBase 8 cs none
  | '0' :: 'O' :: cs => parseDigitsBase 8 cs none
  | '0' :: 'b' :: cs => parseDigitsBase 2 cs none
  | '0' :: 'B' :: cs => parseDigitsBase 2 cs none
  | '0' :: cs => if cs.all (fun c => c = '0') then some 0 else none
  | cs => parseDigitsBase 10 cs none

/-- The `int(query, 16) if query.startswith("0x") else int(query, 0)`
expression in `search_records`, `ValueError` as `none`. -/
def parseQueryInt (q : String) : Option Int :=
  let core : List Char → (List Char → Option Nat) → Option Int := fun cs p =>
    match cs with
    | '-' :: cs => (p cs).map (fun n => -(n : Int))
    | '+' :: cs => (p cs).map (fun n => (n : Int))
    | cs => (p cs).map (fun n => (n : Int))
  if q.startsWith "0x" then core q.data pyIntHex else core q.data pyIntAuto

/-- The WHERE clause of `Store.search_records` applied to one row: always
`snapshot_id = ?`; `record_type = ?` when a (truthy) type filter is given;
`editor_id LIKE ?` for a (truthy) glob pattern; and for a (truthy) query, a
name/editor-id substring match, or the exact form id when the query parses
as an integer. -/
def rowMatches (sid : Nat) (query : String) (record_type edid_pattern : Option String)
    (r : DbRecord) : Bool :=
  (r.snapshot_id = sid) &&
  (match record_type with
   | some t => if t ≠ "" then r.record_type = t else true
   | none => true) &&
  (match edid_pattern with
   | some pat =>
     if pat ≠ "" then
       match r.editor_id with
       | some e => sqlLike (globToLike pat) e
       | none => false
     else true
   | none => true) &&
  (if query ≠ "" then
    let nameLike :=
      match r.full_name with
      | some n => sqlLike ("%" ++ query ++ "%") n
      | none => false
    let edidLike :=
      match r.editor_id with
      | some e => sqlLike ("%" ++ query ++ "%") e
      | none => false
    match parseQueryInt query with
    | some fid => nameLike || edidLike || ((r.form_id : Int) = fid)
    | none => nameLike || edidLike
  else true)

/-- `ORDER BY record_type, form_id` as a total preorder on rows. -/
def rowLe (a b : DbRecord) : Bool :=
  if a.record_type = b.record_type then a.form_id ≤ b.form_id
  else strLe a.record_type b.record_type

/-- `Store.search_records`: filter by the WHERE clause, sort by
`(record_type, form_id)`, and return at most 500 rows (`LIMIT 500`). -/
def Store.search_records (st : Store) (sid : Nat) (query : String)
    (record_type edid_pattern : Option String) : List DbRecord :=
  (((st.records.filter (rowMatches sid query record_type edid_pattern)).insertionSort
    (fun a b => rowLe a b = true)).take 500)

/-- A concrete 170-byte WEAP DNAM payload: bytes [4..8] encode f32 0.5,
bytes [60..64] encode f32 42.0, byte 101 is 3. -/
def c8Dnam : Subrecord :=
  ⟨"DNAM", 170,
    [0, 0, 0, 0] ++ [0, 0, 0, 63] ++ List.replicate 52 0 ++ [0, 0, 40, 66] ++
      List.replicate 37 0 ++ [3] ++ List.replicate 68 0⟩

/-- A concrete WEAP record holding `c8Dnam`. -/
def c8Rec : Record := ⟨"WEAP", 0, 0, 0x1234, 0, 0, [c8Dnam]⟩

/-- The seven placement type tags as strings. -/
def skipStrings : List String :=
  ["REFR", "NAVM", "ACHR", "PGRE", "PMIS", "PHZD", "PARW"]

/-! ### Supporting lemmas for the subrecord parser -/

theorem byteAt_drop (data : List Nat) (off i : Nat) :
    byteAt (data.drop off) i = byteAt data (off + i) := by
  simp [byteAt, List.getD_eq_getElem?_getD, List.getElem?_drop]

theorem slice_drop (data : List Nat) (off i n : Nat) :
    slice (data.drop off) i n = slice data (off + i) n := by
  simp [slice, List.drop_drop, Nat.add_comm]

/-- The subrecord loop ignores its fuel argument as long as the fuel
exceeds the number of remaining bytes. -/
theorem parseSubsFrom_fuel (data : List Nat) :
    ∀ (f₁ f₂ off : Nat), data.length < f₁ + off → data.length < f₂ + off →
      parseSubsFrom data f₁ off = parseSubsFrom data f₂ off := by
  intro f₁
  induction f₁ with
  | zero =>
    intro f₂ off h₁ h₂
    cases f₂ with
    | zero => rfl
    | succ m =>
      rw [parseSubsFrom, parseSubsFrom, if_neg (by omega)]
  | succ n ih =>
    intro f₂ off h₁ h₂
    cases f₂ with
    | zero =>
      rw [parseSubsFrom, parseSubsFrom, if_neg (by omega)]
    | succ m =>
      rw [parseSubsFrom, parseSubsFrom]
      by_cases hg : off + 6 ≤ data.length
      · rw [if_pos hg, if_pos hg]
        by_cases hg2 : off + 6 + readU16le data (off + 4) ≤ data.length
        · rw [if_pos hg2, if_pos hg2, ih m _ (by omega) (by omega)]
        · rw [if_neg hg2, if_neg hg2]
      · rw [if_neg hg, if_neg hg]

/-- The subrecord loop only looks at the bytes from its offset onward. -/
theorem parseSubsFrom_eq_drop :
    ∀ (fuel : Nat) (data : List Nat) (off : Nat),
      parseSubsFrom data fuel off = parseSubsFrom (data.drop off) fuel 0 := by
  intro fuel
  induction fuel with
  | zero => intro data off; rfl
  | succ n ih =>
    intro data off
    rw [parseSubsFrom, parseSubsFrom]
    by_cases h : off + 6 ≤ data.length
    · have h0 : 0 + 6 ≤ (data.drop off).length := by simp; omega
      rw [if_pos h, if_pos h0]
      have htag : slice data off 4 = slice (data.drop off) 0 4 := by
        rw [slice_drop, Nat.add_zero]
      have hsz : readU16le data (off + 4) = readU16le (data.drop off) (0 + 4) := by
        simp [readU16le, byteAt_drop]
      rw [← htag, ← hsz]
      by_cases h2 : off + 6 + readU16le data (off + 4) ≤ data.length
      · have h2b : 0 + 6 + readU16le data (off + 4) ≤ (data.drop off).length := by
          simp; omega
        rw [if_pos h2, if_pos h2b]
        have hdata : slice data (off + 6) (readU16le data (off + 4)) =
            slice (data.drop off) (0 + 6) (readU16le data (off + 4)) := by
          rw [slice_drop]
        rw [← hdata, ih data (off + 6 + readU16le data (off + 4)),
          ih (data.drop off) (0 + 6 + readU16le data (off + 4)), List.drop_drop]
        congr 3
        omega
      · have h2b : ¬ 0 + 6 + readU16le data (off + 4) ≤ (data.drop off).length := by
          simp; omega
        rw [if_neg h2, if_neg h2b]
    · have h0 : ¬ 0 + 6 ≤ (data.drop off).length := by simp; omega
      rw [if_neg h, if_neg h0]

/-- Parsing the bytes of one well-formed subrecord followed by anything
yields that subrecord and continues on the rest. -/
theorem parseSubrecords_cons (s : RawSub) (rest : List Nat) (hwf : s.wf) :
    parseSubrecords (s.bytes ++ rest) = s.toSubrecord :: parseSubrecords rest := by
  obtain ⟨htag, hsz⟩ := hwf
  have hblen : s.bytes.length = 6 + s.payload.length := by
    simp [RawSub.bytes, packU16le, htag]; omega
  have hlen : (s.bytes ++ rest).length = 6 + s.payload.length + rest.length := by
    simp [hblen]
  have hpre : (s.tag ++ packU16le s.payload.length).length = 6 := by
    simp [packU16le, htag]
  have hbytes : s.bytes ++ rest =
      (s.tag ++ packU16le s.payload.length) ++ (s.payload ++ rest) := by
    simp [RawSub.bytes]
  have hdrop6 : (s.bytes ++ rest).drop 6 = s.payload ++ rest := by
    rw [hbytes, ← hpre, List.drop_left]
  have hdrop4 : (s.bytes ++ rest).drop 4 =
      packU16le s.payload.length ++ (s.payload ++ rest) := by
    rw [hbytes, List.append_assoc, ← htag, List.drop_left]
  rw [parseSubrecords, parseSubsFrom]
  have h6 : 0 + 6 ≤ (s.bytes ++ rest).length := by omega
  rw [if_pos h6]
  have htake : slice (s.bytes ++ rest) 0 4 = s.tag := by
    rw [slice, List.drop_zero, hbytes, List.append_assoc, ← htag,
      List.take_left]
  have hread : readU16le (s.bytes ++ rest) (0 + 4) = s.payload.length := by
    have hb4 : byteAt (s.bytes ++ rest) 4 = s.payload.length % 256 := by
      have := byteAt_drop (s.bytes ++ rest) 4 0
      rw [hdrop4] at this
      simpa [packU16le, byteAt] using this.symm
    have hb5 : byteAt (s.bytes ++ rest) 5 = s.payload.length / 256 % 256 := by
      have := byteAt_drop (s.bytes ++ rest) 4 1
      rw [hdrop4] at this
      simpa [packU16le, byteAt] using this.symm
    simp only [readU16le, show (0 + 4 = 4) from rfl, show (4 + 1 = 5) from rfl,
      hb4, hb5]
    omega
  rw [htake, hread]
  have hguard : 0 + 6 + s.payload.length ≤ (s.bytes ++ rest).length := by omega
  rw [if_pos hguard]
  have hslice : slice (s.bytes ++ rest) (0 + 6) s.payload.length = s.payload := by
    rw [slice, show (0 + 6 = 6) from rfl, hdrop6, List.take_append_of_le_length
      (Nat.le_refl _), List.take_length]
  rw [hslice, parseSubsFrom_eq_drop,
    show (0 + 6 + s.payload.length = 6 + s.payload.length) from rfl,
    show ((s.bytes ++ rest).drop (6 + s.payload.length) = rest) from by
      rw [hbytes, ← show ((s.tag ++ packU16le s.payload.length) ++ s.payload).length
          = 6 + s.payload.length from by rw [List.length_append, hpre],
        ← List.append_assoc, List.drop_left],
    parseSubsFrom_fuel rest ((s.bytes ++ rest).length) (rest.length + 1) 0
      (by omega) (by omega)]
  rfl

/-- Parsing serialized well-formed subrecords followed by anything yields
exactly those subrecords followed by the parse of the tail. -/
theorem parseSubrecords_append (l : List RawSub) (tail : List Nat)
    (hwf : ∀ s ∈ l, s.wf) :
    parseSubrecords (rawSubsBytes l ++ tail) =
      l.map RawSub.toSubrecord ++ parseSubrecords tail := by
  induction l with
  | nil => simp [rawSubsBytes]
  | cons s l ih =>
    have hs : s.wf := hwf s (by simp)
    have hl : ∀ t ∈ l, t.wf := fun t ht => hwf t (by simp [ht])
    rw [rawSubsBytes, List.map_cons, List.flatten_cons, List.append_assoc,
      parseSubrecords_cons s _ hs, ← rawSubsBytes, ih hl]
    simp

/-! ### Supporting lemmas for the skip-type invariant -/

theorem asciiChar_eq (a : Nat) (c : Char) (hc : c.toNat < 128)
    (h : asciiChar a = c) : a = c.toNat := by
  unfold asciiChar at h
  by_cases ha : a < 128
  · rw [if_pos ha] at h
    have hrt : ∀ x : Nat, x < 128 → (Char.ofNat x).toNat = x := by decide
    calc a = (Char.ofNat a).toNat := (hrt a ha).symm
    _ = c.toNat := by rw [h]
  · rw [if_neg ha] at h
    have : (Char.ofNat 0xFFFD).toNat = 65533 := by decide
    rw [← h] at hc
    omega

theorem decodeAscii_eq_chars : ∀ (cs : List Char) (tb : List Nat),
    (∀ c ∈ cs, c.toNat < 128) → decodeAsciiReplace tb = ⟨cs⟩ →
    tb = cs.map Char.toNat := by
  intro cs
  induction cs with
  | nil =>
    intro tb _ h
    have : tb.map asciiChar = [] := congrArg String.data h
    simpa using this
  | cons c cs ih =>
    intro tb hascii h
    have hmap : tb.map asciiChar = c :: cs := congrArg String.data h
    cases tb with
    | nil => simp at hmap
    | cons a tb =>
      rw [List.map_cons] at hmap
      have h1 : asciiChar a = c := (List.cons.injEq _ _ _ _ ▸ hmap).1
      have h2 : tb.map asciiChar = cs := (List.cons.injEq _ _ _ _ ▸ hmap).2
      have ha := asciiChar_eq a c (hascii c (by simp)) h1
      have htb := ih tb (fun d hd => hascii d (by simp [hd])) (congrArg String.mk h2)
      rw [List.map_cons, ← ha, ← htb]

/-- If the ASCII decode of a byte tag is one of the placement type names,
the tag bytes are exactly the corresponding `SKIP_TYPES` entry. -/
theorem decodeAscii_mem_skip (tb : List Nat)
    (h : decodeAsciiReplace tb ∈ skipStrings) : tb ∈ skipTypes := by
  simp only [skipStrings, List.mem_cons, List.not_mem_nil, or_false] at h
  rcases h with h | h | h | h | h | h | h <;>
    · have := decodeAscii_eq_chars _ tb (by decide) h
      subst this
      decide

/-- Every record yielded by `_parse_group_contents` carries a type tag whose
(rstripped) bytes passed the skip-type filter. -/
theorem parseGroupContents_types (inflate : Inflate) (skip : List (List Nat))
    (data : List Nat) :
    ∀ (fuel pos stop : Nat) (recs : List Record),
      parseGroupContents inflate skip data fuel pos stop = some recs →
      ∀ r ∈ recs, ∃ tb, tb ∉ skip ∧ r.type = decodeAsciiReplace tb := by
  intro fuel
  induction fuel with
  | zero =>
    intro pos stop recs h
    exact absurd h (by simp [parseGroupContents])
  | succ n ih =>
    intro pos stop recs h r hr
    rw [parseGroupContents] at h
    by_cases h1 : pos < stop
    swap
    · rw [if_neg h1] at h
      cases h
      simp at hr
    rw [if_pos h1] at h
    by_cases h2 : pos + 4 > stop
    · rw [if_pos h2] at h
      cases h
      simp at hr
    rw [if_neg h2] at h
    by_cases h3 : slice data pos 4 = grupTag
    · rw [if_pos h3] at h
      by_cases h4 : pos + 24 > stop
      · rw [if_pos h4] at h
        cases h
        simp at hr
      rw [if_neg h4] at h
      by_cases h5 : pos + 24 > data.length
      · rw [if_pos h5] at h
        exact absurd h (by simp)
      rw [if_neg h5] at h
      by_cases h6 : readU32le data (pos + 12) = 8 ∨ readU32le data (pos + 12) = 9
      · rw [if_pos h6] at h
        exact ih _ _ _ h r hr
      rw [if_neg h6] at h
      cases hinner : parseGroupContents inflate skip data n (pos + 24)
          (pos + readU32le data (pos + 4)) with
      | none => rw [hinner] at h; exact absurd h (by simp)
      | some inner =>
        rw [hinner] at h
        cases hrest : parseGroupContents inflate skip data n
            (pos + readU32le data (pos + 4)) stop with
        | none => rw [hrest] at h; exact absurd h (by simp)
        | some rest =>
          rw [hrest] at h
          simp only [Option.some_bind, Option.some.injEq] at h
          subst h
          rcases List.mem_append.mp hr with hm | hm
          · exact ih _ _ _ hinner r hm
          · exact ih _ _ _ hrest r hm
    · rw [if_neg h3] at h
      by_cases h4 : pos + 24 > stop
      · rw [if_pos h4] at h
        cases h
        simp at hr
      rw [if_neg h4] at h
      by_cases h5 : pos + 24 > data.length
      · rw [if_pos h5] at h
        exact absurd h (by simp)
      rw [if_neg h5] at h
      by_cases h6 : rstripNulls (slice data pos 4) ∈ skip
      · rw [if_pos h6] at h
        exact ih _ _ _ h r hr
      rw [if_neg h6] at h
      by_cases h7 : pos + 24 + readU32le data (pos + 4) > stop
      · rw [if_pos h7] at h
        cases h
        simp at hr
      rw [if_neg h7] at h
      by_cases h8 : readU32le data (pos + 8) / 0x40000 % 2 = 1
      · rw [if_pos h8] at h
        by_cases h9 : (slice data (pos + 24) (readU32le data (pos + 4))).length < 4
        · rw [if_pos h9] at h
          exact ih _ _ _ h r hr
        rw [if_neg h9] at h
        cases hinf : inflate ((slice data (pos + 24) (readU32le data (pos + 4))).drop 4) with
        | none =>
          rw [hinf] at h
          exact ih _ _ _ h r hr
        | some inflated =>
          rw [hinf] at h
          cases hrest : parseGroupContents inflate skip data n
              (pos + 24 + readU32le data (pos + 4)) stop with
          | none => rw [hrest] at h; exact absurd h (by simp)
          | some rest =>
            rw [hrest] at h
            simp only [Option.some_bind, Option.some.injEq] at h
            subst h
            rcases List.mem_cons.mp hr with hm | hm
            · exact ⟨rstripNulls (slice data pos 4), h6, by rw [hm]; rfl⟩
            · exact ih _ _ _ hrest r hm
      · rw [if_neg h8] at h
        cases hrest : parseGroupContents inflate skip data n
            (pos + 24 + readU32le data (pos + 4)) stop with
        | none => rw [hrest] at h; exact absurd h (by simp)
        | some rest =>
          rw [hrest] at h
          simp only [Option.some_bind, Option.some.injEq] at h
          subst h
          rcases List.mem_cons.mp hr with hm | hm
          · exact ⟨rstripNulls (slice data pos 4), h6, by rw [hm]; rfl⟩
          · exact ih _ _ _ hrest r hm

/-- Every record yielded by the top-level group walk satisfies the same
tag property. -/
theorem iterTopGroups_types (inflate : Inflate) (skip : List (List Nat))
    (data : List Nat) :
    ∀ (fuel pos : Nat) (recs : List Record),
      iterTopGroups inflate skip data fuel pos = some recs →
      ∀ r ∈ recs, ∃ tb, tb ∉ skip ∧ r.type = decodeAsciiReplace tb := by
  intro fuel
  induction fuel with
  | zero =>
    intro pos recs h
    exact absurd h (by simp [iterTopGroups])
  | succ n ih =>
    intro pos recs h r hr
    rw [iterTopGroups] at h
    by_cases h1 : pos < data.length
    swap
    · rw [if_neg h1] at h
      cases h
      simp at hr
    rw [if_pos h1] at h
    by_cases h2 : pos + 24 > data.length
    · rw [if_pos h2] at h
      cases h
      simp at hr
    rw [if_neg h2] at h
    by_cases h3 : slice data pos 4 ≠ grupTag
    · rw [if_pos h3] at h
      cases h
      simp at hr
    rw [if_neg h3] at h
    by_cases h4 : readU32le data (pos + 12) = 0 ∧ slice data (pos + 8) 4 ∈ skip
    · rw [if_pos h4] at h
      exact ih _ _ h r hr
    rw [if_neg h4] at h
    cases hinner : parseGroupContents inflate skip data n (pos + 24)
        (pos + readU32le data (pos + 4)) with
    | none => rw [hinner] at h; exact absurd h (by simp)
    | some inner =>
      rw [hinner] at h
      cases hrest : iterTopGroups inflate skip data n
          (pos + readU32le data (pos + 4)) with
      | none => rw [hrest] at h; exact absurd h (by simp)
      | some rest =>
        rw [hrest] at h
        simp only [Option.some_bind, Option.some.injEq] at h
        subst h
        rcases List.mem_append.mp hr with hm | hm
        · exact parseGroupContents_types inflate skip data _ _ _ _ hinner r hm
        · exact ih _ _ hrest r hm

/-- A subrecord header whose declared size overruns the remaining payload
parses to nothing. -/
theorem parseSubrecords_overrun (badTag : List Nat) (sz : Nat) (short : List Nat)
    (hbt : badTag.length = 4) (hsz : sz < 65536) (hover : short.length < sz) :
    parseSubrecords (badTag ++ packU16le sz ++ short) = [] := by
  have hlen : (badTag ++ packU16le sz ++ short).length = 6 + short.length := by
    simp [packU16le, hbt]; omega
  rw [parseSubrecords, parseSubsFrom]
  have h6 : 0 + 6 ≤ (badTag ++ packU16le sz ++ short).length := by omega
  rw [if_pos h6]
  have hdrop4 : (badTag ++ packU16le sz ++ short).drop 4 = packU16le sz ++ short := by
    rw [List.append_assoc, ← hbt, List.drop_left]
  have hread : readU16le (badTag ++ packU16le sz ++ short) (0 + 4) = sz := by
    have hb4 : byteAt (badTag ++ packU16le sz ++ short) 4 = sz % 256 := by
      have := byteAt_drop (badTag ++ packU16le sz ++ short) 4 0
      rw [hdrop4] at this
      simpa [packU16le, byteAt] using this.symm
    have hb5 : byteAt (badTag ++ packU16le sz ++ short) 5 = sz / 256 % 256 := by
      have := byteAt_drop (badTag ++ packU16le sz ++ short) 4 1
      rw [hdrop4] at this
      simpa [packU16le, byteAt] using this.symm
    simp only [readU16le, show (0 + 4 = 4) from rfl, show (4 + 1 = 5) from rfl,
      hb4, hb5]
    omega
  rw [hread]
  have : ¬ 0 + 6 + sz ≤ (badTag ++ packU16le sz ++ short).length := by omega
  rw [if_neg this]

end Fo76

/-- C6: a subrecord whose declared size plus its offset exceeds the end of
the record payload is rejected, and every subrecord parsed before it from
the same record is retained in the returned list, in file order. -/
theorem C6_subrecord_overrun_rejected (good : List Fo76.RawSub)
    (badTag : List Nat) (sz : Nat) (short : List Nat)
    (hwf : ∀ s ∈ good, s.wf) (hbt : badTag.length = 4)
    (hsz : sz < 65536) (hover : short.length < sz) :
    Fo76.parseSubrecords
        (Fo76.rawSubsBytes good ++ (badTag ++ Fo76.packU16le sz ++ short)) =
      good.map Fo76.RawSub.toSubrecord := by
  rw [Fo76.parseSubrecords_append good _ hwf,
    Fo76.parseSubrecords_overrun badTag sz short hbt hsz hover,
    List.append_nil]

/-- Witness for C6: an `EDID` subrecord followed by a `DATA` header that
declares 10 bytes but provides only 3 parses to exactly the `EDID`
subrecord. -/
theorem C6_subrecord_overrun_rejected_witness :
    let good : List Fo76.RawSub := [⟨[69, 68, 73, 68], [84, 115, 0]⟩]
    (∀ s ∈ good, s.wf) ∧ [68, 65, 84, 65].length = 4 ∧ 10 < 65536 ∧
      [1, 2, 3].length < 10 ∧
      Fo76.parseSubrecords
          (Fo76.rawSubsBytes good ++
            ([68, 65, 84, 65] ++ Fo76.packU16le 10 ++ [1, 2, 3])) =
        good.map Fo76.RawSub.toSubrecord :=
  ⟨by decide, by decide, by decide, by decide,
    C6_subrecord_overrun_rejected _ _ _ _ (by decide) (by decide) (by decide)
      (by decide)⟩

/-- C1: a record's content hash is computed by SHA-256 over the in-order
concatenation of (subrecord tag, size, payload); it is a deterministic
function of the ordered subrecord list — two records with the same ordered
subrecords have the same hash — and therefore does not depend on the
record-level flags, revision, or version. -/
theorem C1_data_hash_deterministic (r₁ r₂ : Fo76.Record)
    (h : r₁.subrecords = r₂.subrecords) :
    r₁.dataHash = r₂.dataHash ∧
      r₁.dataHash = Fo76.sha256Hex (Fo76.dataHashInput r₁.subrecords) := by
  constructor
  · unfold Fo76.Record.dataHash
    rw [h]
  · rfl

/-- Witness for C1: two concrete records with equal subrecord lists but
different flags, revision and version hash identically. -/
theorem C1_data_hash_deterministic_witness :
    let subs : List Fo76.Subrecord := [⟨"EDID", 4, [84, 101, 115, 0]⟩]
    let r₁ : Fo76.Record := ⟨"WEAP", 10, 0, 0x100, 1, 2, subs⟩
    let r₂ : Fo76.Record := ⟨"WEAP", 10, 0x40000, 0x100, 7, 9, subs⟩
    r₁.dataHash = r₂.dataHash ∧
      r₁.dataHash = Fo76.sha256Hex (Fo76.dataHashInput r₁.subrecords) :=
  C1_data_hash_deterministic _ _ rfl

/-- C7: with the default skip set, no record whose type tag is one of REFR,
NAVM, ACHR, PGRE, PMIS, PHZD, PARW ever appears in the record sequence
produced by the parser, whether the record occurs under a top-level group of
that label or nested inside another group. -/
theorem C7_no_placement_records (inflate : Fo76.Inflate) (data : List Nat)
    (fuel : Nat) (recs : List Fo76.Record)
    (h : Fo76.iterRecords inflate Fo76.skipTypes data fuel = some recs) :
    ∀ r ∈ recs, r.type ∉ Fo76.skipStrings := by
  intro r hr hmem
  rw [Fo76.iterRecords] at h
  by_cases h1 : Fo76.slice data 0 4 ≠ Fo76.tes4Tag
  · rw [if_pos h1] at h
    exact absurd h (by simp)
  rw [if_neg h1] at h
  by_cases h2 : 24 > data.length
  · rw [if_pos h2] at h
    exact absurd h (by simp)
  rw [if_neg h2] at h
  obtain ⟨tb, htb, hty⟩ :=
    Fo76.iterTopGroups_types inflate Fo76.skipTypes data fuel _ recs h r hr
  rw [hty] at hmem
  exact htb (Fo76.decodeAscii_mem_skip tb hmem)

/-- Witness for C7: on the miniature archive the parser yields one WEAP
record and its type is not a placement type. -/
theorem C7_no_placement_records_witness :
    (Fo76.iterRecords Fo76.inflateNone Fo76.skipTypes Fo76.demoEsmBytes 10 =
      some [⟨"WEAP", 0, 0, 16, 0, 300, []⟩]) ∧
    ∀ r ∈ [(⟨"WEAP", 0, 0, 16, 0, 300, []⟩ : Fo76.Record)],
      r.type ∉ Fo76.skipStrings :=
  ⟨by decide, C7_no_placement_records Fo76.inflateNone Fo76.demoEsmBytes 10 _ (by decide)⟩

/-- An empty window parses to no records (one unfolding step). -/
theorem parseGroupContents_stop (inflate : Fo76.Inflate) (skip : List (List Nat))
    (data : List Nat) (fuel stop : Nat) :
    Fo76.parseGroupContents inflate skip data (fuel + 1) stop stop = some [] := by
  rw [Fo76.parseGroupContents, if_neg (Nat.lt_irrefl stop)]

/-- C2 (amended): when the compressed flag 0x00040000 is set, the payload is
inflated after the leading u32 `uncompressed_size`; a compressed record whose
payload is shorter than 4 bytes, or whose inflation fails, is dropped and
parsing continues; the declared uncompressed size is never compared with the
inflated length, so a record whose declared size disagrees with the inflated
length is retained, its subrecords parsed from the inflated bytes. The
right-hand side below never mentions the declared size
`readU32le (slice data (pos + 24) (readU32le data (pos + 4))) 0`. -/
theorem C2_compressed_size_not_checked (inflate : Fo76.Inflate)
    (data : List Nat) (fuel pos stop : Nat)
    (hpos : pos < stop) (h4 : ¬ pos + 4 > stop)
    (hng : ¬ Fo76.slice data pos 4 = Fo76.grupTag)
    (h24 : ¬ pos + 24 > stop) (hlen : ¬ pos + 24 > data.length)
    (hskip : Fo76.rstripNulls (Fo76.slice data pos 4) ∉ Fo76.skipTypes)
    (hfit : ¬ pos + 24 + Fo76.readU32le data (pos + 4) > stop)
    (hcomp : Fo76.readU32le data (pos + 8) / 0x40000 % 2 = 1)
    (hstop : stop = pos + 24 + Fo76.readU32le data (pos + 4)) :
    Fo76.parseGroupContents inflate Fo76.skipTypes data (fuel + 2) pos stop =
      if (Fo76.slice data (pos + 24) (Fo76.readU32le data (pos + 4))).length < 4
      then some []
      else
        match inflate
            ((Fo76.slice data (pos + 24) (Fo76.readU32le data (pos + 4))).drop 4) with
        | none => some []
        | some inflated => some [Fo76.mkParsedRecord data pos inflated] := by
  rw [Fo76.parseGroupContents, if_pos hpos, if_neg h4, if_neg hng, if_neg h24,
    if_neg hlen, if_neg hskip, if_neg hfit, if_pos hcomp]
  by_cases hraw : (Fo76.slice data (pos + 24) (Fo76.readU32le data (pos + 4))).length < 4
  · rw [if_pos hraw, if_pos hraw, ← hstop, parseGroupContents_stop]
  · rw [if_neg hraw, if_neg hraw]
    cases hinf : inflate
        ((Fo76.slice data (pos + 24) (Fo76.readU32le data (pos + 4))).drop 4) with
    | none => rw [← hstop, parseGroupContents_stop]
    | some inflated =>
      rw [← hstop, parseGroupContents_stop]
      simp

/-- Counterexample to C2 as stated: in `c2EsmBytes` the compressed WEAP
record declares uncompressed size 999 while the inflated bytes have length
2, yet the record is not rejected — it appears in the parse output. -/
theorem C2_claim_counterexample :
    Fo76.readU32le (Fo76.slice Fo76.c2EsmBytes 72 17) 0 = 999 ∧
    Fo76.inflateAB ((Fo76.slice Fo76.c2EsmBytes 72 17).drop 4) = some [65, 66] ∧
    ([65, 66] : List Nat).length ≠ 999 ∧
    Fo76.iterRecords Fo76.inflateAB Fo76.skipTypes Fo76.c2EsmBytes 10 =
      some [⟨"WEAP", 17, 262144, 1, 0, 300, []⟩] :=
  ⟨by decide, rfl, by decide, by decide⟩

/-- Witness for the amended C2: the general lemma applied to the concrete
mismatching record of `c2EsmBytes` (window `[48, 89)`). -/
theorem C2_compressed_size_not_checked_witness :
    (48 < 89 ∧ ¬ 48 + 4 > 89 ∧
      ¬ Fo76.slice Fo76.c2EsmBytes 48 4 = Fo76.grupTag ∧
      ¬ 48 + 24 > 89 ∧ ¬ 48 + 24 > Fo76.c2EsmBytes.length ∧
      Fo76.rstripNulls (Fo76.slice Fo76.c2EsmBytes 48 4) ∉ Fo76.skipTypes ∧
      ¬ 48 + 24 + Fo76.readU32le Fo76.c2EsmBytes (48 + 4) > 89 ∧
      Fo76.readU32le Fo76.c2EsmBytes (48 + 8) / 0x40000 % 2 = 1 ∧
      89 = 48 + 24 + Fo76.readU32le Fo76.c2EsmBytes (48 + 4)) ∧
    Fo76.parseGroupContents Fo76.inflateAB Fo76.skipTypes Fo76.c2EsmBytes
        (8 + 2) 48 89 =
      if (Fo76.slice Fo76.c2EsmBytes (48 + 24)
          (Fo76.readU32le Fo76.c2EsmBytes (48 + 4))).length < 4
      then some []
      else
        match Fo76.inflateAB
            ((Fo76.slice Fo76.c2EsmBytes (48 + 24)
              (Fo76.readU32le Fo76.c2EsmBytes (48 + 4))).drop 4) with
        | none => some []
        | some inflated => some [Fo76.mkParsedRecord Fo76.c2EsmBytes 48 inflated] :=
  ⟨⟨by decide, by decide, by decide, by decide, by decide, by decide, by decide,
    by decide, by decide⟩,
    C2_compressed_size_not_checked Fo76.inflateAB Fo76.c2EsmBytes 8 48 89
      (by decide) (by decide) (by decide) (by decide) (by decide) (by decide)
      (by decide) (by decide) (by decide)⟩

/-- Reading a little-endian u32 whose four bytes are known via a slice. -/
theorem readU32le_of_slice (data : List Nat) (off a b c d : Nat)
    (h : Fo76.slice data off 4 = [a, b, c, d]) :
    Fo76.readU32le data off = a + 256 * b + 65536 * c + 16777216 * d := by
  have hdec : data.drop off = [a, b, c, d] ++ (data.drop off).drop 4 := by
    conv_lhs => rw [← List.take_append_drop 4 (data.drop off)]
    rw [show (data.drop off).take 4 = [a, b, c, d] from h]
  have h0 : Fo76.byteAt data (off + 0) = a := by
    rw [← Fo76.byteAt_drop, hdec]; rfl
  have h1 : Fo76.byteAt data (off + 1) = b := by
    rw [← Fo76.byteAt_drop, hdec]; rfl
  have h2 : Fo76.byteAt data (off + 2) = c := by
    rw [← Fo76.byteAt_drop, hdec]; rfl
  have h3 : Fo76.byteAt data (off + 3) = d := by
    rw [← Fo76.byteAt_drop, hdec]; rfl
  rw [Fo76.readU32le, show off = off + 0 from rfl, h0,
    show off + 0 + 1 = off + 1 from rfl, h1,
    show off + 0 + 2 = off + 2 from rfl, h2,
    show off + 0 + 3 = off + 3 from rfl, h3]

/-- C8: a WEAP record whose DNAM subrecord is at least 170 bytes, with
bytes [4..8] encoding f32 0.5, bytes [60..64] encoding f32 42.0 and byte
101 equal to 3, decodes to speed = "0.5000", damage = "42.0" and
num_projectiles = "3". -/
theorem C8_weap_decode (rec : Fo76.Record) (dnam : Fo76.Subrecord)
    (hd : rec.getSubrecord "DNAM" = some dnam)
    (hsize : 170 ≤ dnam.size)
    (hspeed : Fo76.slice dnam.data 4 4 = [0, 0, 0, 63])
    (hdam : Fo76.slice dnam.data 60 4 = [0, 0, 40, 66])
    (hproj : Fo76.byteAt dnam.data 101 = 3) :
    (rec.form_id, "speed", "0.5000", "float") ∈ Fo76.decode_weap rec ∧
    (rec.form_id, "damage", "42.0", "float") ∈ Fo76.decode_weap rec ∧
    (rec.form_id, "num_projectiles", "3", "int") ∈ Fo76.decode_weap rec := by
  have hs : Fo76.readF32Str dnam.data 4 4 = "0.5000" := by
    rw [Fo76.readF32Str, readU32le_of_slice dnam.data 4 0 0 0 63 hspeed]
    decide
  have hdm : Fo76.readF32Str dnam.data 60 1 = "42.0" := by
    rw [Fo76.readF32Str, readU32le_of_slice dnam.data 60 0 0 40 66 hdam]
    decide
  have hp : Fo76.natToStr (Fo76.byteAt dnam.data 101) = "3" := by
    rw [hproj]; decide
  refine ⟨?_, ?_, ?_⟩ <;>
    simp [Fo76.decode_weap, hd, hsize, hs, hdm, hp]

/-- Witness for C8: a concrete 170-byte DNAM with the given byte patterns
produces the three fields. -/
theorem C8_weap_decode_witness :
    (Fo76.c8Rec.getSubrecord "DNAM" = some Fo76.c8Dnam ∧ 170 ≤ Fo76.c8Dnam.size ∧
      Fo76.slice Fo76.c8Dnam.data 4 4 = [0, 0, 0, 63] ∧
      Fo76.slice Fo76.c8Dnam.data 60 4 = [0, 0, 40, 66] ∧
      Fo76.byteAt Fo76.c8Dnam.data 101 = 3) ∧
    ((Fo76.c8Rec.form_id, "speed", "0.5000", "float") ∈ Fo76.decode_weap Fo76.c8Rec ∧
     (Fo76.c8Rec.form_id, "damage", "42.0", "float") ∈ Fo76.decode_weap Fo76.c8Rec ∧
     (Fo76.c8Rec.form_id, "num_projectiles", "3", "int") ∈
       Fo76.decode_weap Fo76.c8Rec) :=
  ⟨⟨by decide, by decide, by decide, by decide, by decide⟩,
    C8_weap_decode Fo76.c8Rec Fo76.c8Dnam (by decide) (by decide) (by decide)
      (by decide) (by decide)⟩

/-- Counterexample to C3 as stated: a record containing a single CTDA
subrecord of size 0 — far shorter than every offset the CTDA layout
requires — still gets decoded fields, among them a defaulted
`condition_0_function = "0"`. -/
theorem C3_claim_counterexample :
    (1, "condition_0_function", "0", "int") ∈
      Fo76.decode_ctda_conditions ⟨"KYWD", 0, 0, 1, 0, 0, [⟨"CTDA", 0, []⟩]⟩ ∧
    Fo76.decode_ctda_conditions ⟨"KYWD", 0, 0, 1, 0, 0, [⟨"CTDA", 0, []⟩]⟩ ≠ [] := by
  constructor
  · decide
  · decide

/-- C3 (amended): per-type decoders size-guard whole subrecords — the WEAP
decoder emits nothing from a DNAM shorter than 170 bytes, a CRDT shorter
than 12, or a DAMA shorter than 8 — and the CTDA decoder emits its
offset-guarded fields (comparison, param hex, run-on, reference, summary)
only when the payload size clears the offset; but for every present CTDA it
unconditionally emits `_raw`, `_function`, `_function_name` and `_operator`,
with the function index defaulting to 0 when the payload is shorter than 10
bytes. -/
theorem C3_short_subrecord_guards :
    (∀ rec : Fo76.Record,
      (∀ sub ∈ rec.subrecords,
        (sub.type = "DNAM" → sub.size < 170) ∧
        (sub.type = "CRDT" → sub.size < 12) ∧
        (sub.type = "DAMA" → sub.size < 8)) →
      Fo76.decode_weap rec = []) ∧
    (∀ (t : String) (ds fl fid rv vv s : Nat) (d : List Nat), s < 8 →
      Fo76.decode_ctda_conditions ⟨t, ds, fl, fid, rv, vv, [⟨"CTDA", s, d⟩]⟩ =
        [(fid, "condition_count", "1", "int"),
         (fid, "condition_0_raw", Fo76.bytesHex d, "str"),
         (fid, "condition_0_function", "0", "int"),
         (fid, "condition_0_function_name", Fo76.function_name 0, "str"),
         (fid, "condition_0_operator",
           Fo76.operator_str (if 1 ≤ s then Fo76.byteAt d 0 else 0), "str")]) := by
  constructor
  · intro rec hall
    rw [Fo76.decode_weap]
    have hdn : ∀ dnam, rec.getSubrecord "DNAM" = some dnam → dnam.size < 170 := by
      intro dnam hf
      rw [Fo76.Record.getSubrecord] at hf
      have hmem := List.mem_of_find?_eq_some hf
      have hty : dnam.type = "DNAM" := by simpa using List.find?_some hf
      exact (hall dnam hmem).1 hty
    have hcr : ∀ crdt, rec.getSubrecord "CRDT" = some crdt → crdt.size < 12 := by
      intro crdt hf
      rw [Fo76.Record.getSubrecord] at hf
      have hmem := List.mem_of_find?_eq_some hf
      have hty : crdt.type = "CRDT" := by simpa using List.find?_some hf
      exact (hall crdt hmem).2.1 hty
    have hda : ∀ dama, rec.getSubrecord "DAMA" = some dama → dama.size < 8 := by
      intro dama hf
      rw [Fo76.Record.getSubrecord] at hf
      have hmem := List.mem_of_find?_eq_some hf
      have hty : dama.type = "DAMA" := by simpa using List.find?_some hf
      exact (hall dama hmem).2.2 hty
    cases h1 : rec.getSubrecord "DNAM" with
    | none =>
      cases h2 : rec.getSubrecord "CRDT" with
      | none =>
        cases h3 : rec.getSubrecord "DAMA" with
        | none => simp
        | some dama => simp [Nat.not_le.mpr (hda dama h3)]
      | some crdt =>
        cases h3 : rec.getSubrecord "DAMA" with
        | none => simp [Nat.not_le.mpr (hcr crdt h2)]
        | some dama =>
          simp [Nat.not_le.mpr (hcr crdt h2), Nat.not_le.mpr (hda dama h3)]
    | some dnam =>
      cases h2 : rec.getSubrecord "CRDT" with
      | none =>
        cases h3 : rec.getSubrecord "DAMA" with
        | none => simp [Nat.not_le.mpr (hdn dnam h1)]
        | some dama =>
          simp [Nat.not_le.mpr (hdn dnam h1), Nat.not_le.mpr (hda dama h3)]
      | some crdt =>
        cases h3 : rec.getSubrecord "DAMA" with
        | none =>
          simp [Nat.not_le.mpr (hdn dnam h1), Nat.not_le.mpr (hcr crdt h2)]
        | some dama =>
          simp [Nat.not_le.mpr (hdn dnam h1), Nat.not_le.mpr (hcr crdt h2),
            Nat.not_le.mpr (hda dama h3)]
  · intro t ds fl fid rv vv s d hs
    have h8 : ¬ 8 ≤ s := by omega
    have h10 : ¬ 10 ≤ s := by omega
    have h16 : ¬ 16 ≤ s := by omega
    have h20 : ¬ 20 ≤ s := by omega
    have h24 : ¬ 24 ≤ s := by omega
    have h28 : ¬ 28 ≤ s := by omega
    have e1 : Fo76.natToStr 1 = "1" := by decide
    have e0 : Fo76.natToStr 0 = "0" := by decide
    have n1 : ("condition_" ++ Fo76.natToStr 0) ++ "_raw" = "condition_0_raw" := by
      decide
    have n2 : ("condition_" ++ Fo76.natToStr 0) ++ "_function" =
        "condition_0_function" := by decide
    have n3 : ("condition_" ++ Fo76.natToStr 0) ++ "_function_name" =
        "condition_0_function_name" := by decide
    have n4 : ("condition_" ++ Fo76.natToStr 0) ++ "_operator" =
        "condition_0_operator" := by decide
    simp [Fo76.decode_ctda_conditions, Fo76.ctdaGroupsGo, Fo76.ctdaGroupFields,
      h8, h10, h16, h20, h24, h28, e1, e0, n1, n2, n3, n4]

/-- Witness for the amended C3: the WEAP decoder on a record whose only
DNAM has 100 bytes of size emits nothing, and the CTDA decoder on a 0-byte
CTDA emits exactly the five default rows. -/
theorem C3_short_subrecord_guards_witness :
    ((∀ sub ∈ ([⟨"DNAM", 100, List.replicate 100 0⟩] : List Fo76.Subrecord),
        (sub.type = "DNAM" → sub.size < 170) ∧
        (sub.type = "CRDT" → sub.size < 12) ∧
        (sub.type = "DAMA" → sub.size < 8)) ∧ (0 : Nat) < 8) ∧
    (Fo76.decode_weap ⟨"WEAP", 0, 0, 7, 0, 0, [⟨"DNAM", 100, List.replicate 100 0⟩]⟩ = [] ∧
     Fo76.decode_ctda_conditions ⟨"KYWD", 0, 0, 1, 0, 0, [⟨"CTDA", 0, []⟩]⟩ =
        [(1, "condition_count", "1", "int"),
         (1, "condition_0_raw", Fo76.bytesHex [], "str"),
         (1, "condition_0_function", "0", "int"),
         (1, "condition_0_function_name", Fo76.function_name 0, "str"),
         (1, "condition_0_operator",
           Fo76.operator_str (if 1 ≤ (0 : Nat) then Fo76.byteAt [] 0 else 0), "str")]) :=
  ⟨⟨by decide, by decide⟩,
    C3_short_subrecord_guards.1 _ (by decide),
    C3_short_subrecord_guards.2 "KYWD" 0 0 1 0 0 0 [] (by decide)⟩

/-! ### Supporting lemmas for the string loader and the diff engine -/

namespace Fo76

theorem readU32le_pack_head (x : Nat) (rest : List Nat) (hx : x < 4294967296) :
    readU32le (packU32le x ++ rest) 0 = x := by
  simp only [readU32le, packU32le, byteAt, List.cons_append, List.nil_append,
    List.getD_cons_zero, List.getD_cons_succ]
  omega

theorem drop4_pack (x : Nat) (rest : List Nat) :
    (packU32le x ++ rest).drop 4 = rest := by
  simp [packU32le]

theorem readU32le_drop (data : List Nat) (off : Nat) :
    readU32le data off = readU32le (data.drop off) 0 := by
  simp [readU32le, byteAt_drop]

end Fo76

/-- C4: comparing a snapshot against itself on a single store with no type
filter returns (without raising) a DiffResult whose added, removed and
modified lists are all empty and whose field-change mapping is empty. -/
theorem C4_diff_self_empty (st : Fo76.Store) (S : Nat) :
    Fo76.compare st st S S none = some ⟨S, S, [], [], [], []⟩ := by
  have hfil : (Fo76.dictKeys (st.get_record_hashes S)).filter
      (fun f => decide (¬ f ∈ Fo76.dictKeys (st.get_record_hashes S))) = [] := by
    rw [List.filter_eq_nil_iff]
    intro a ha
    simp [ha]
  have hadded : Fo76.compareAdded st st S S none = [] := by
    rw [Fo76.compareAdded, hfil]
    rfl
  have hremoved : Fo76.compareRemoved st st S S none = [] := by
    rw [Fo76.compareRemoved, hfil]
    rfl
  have hmod : Fo76.compareModPairs st st S S none = [] := by
    rw [Fo76.compareModPairs, List.filterMap_eq_nil_iff]
    intro fid _
    simp
  rw [Fo76.compare, hmod]
  simp [hadded, hremoved]

/-- C5: evaluation of the diff engine at a concrete failing input. In
`c5Store`, form id 5 is modified between snapshots 1 and 2 (hashes differ)
and its decoded `damage` field differs, so `_diff_fields` reaches the
`FieldChange(..., field_type=ft)` construction, which raises `TypeError`
because `models.FieldChange` accepts no `field_type` argument; `compare`
therefore raises in both directions and produces no `DiffResult` at all,
while the claim asserts the two diffs exist with swapped added/removed and
identical modified form-id sets. -/
theorem C5_fieldchange_typeerror :
    Fo76.dictGet 5 (Fo76.Store.get_record_hashes Fo76.c5Store 1) ≠
      Fo76.dictGet 5 (Fo76.Store.get_record_hashes Fo76.c5Store 2) ∧
    Fo76.diff_fields Fo76.c5Store Fo76.c5Store 1 2 5 = none ∧
    Fo76.compare Fo76.c5Store Fo76.c5Store 1 2 none = none ∧
    Fo76.compare Fo76.c5Store Fo76.c5Store 2 1 none = none :=
  ⟨by decide, by decide, by decide, by decide⟩

/-- C10 (implicit): `Store.search_records` returns at most 500 rows for
every query, snapshot and filter combination — the SQL carries `LIMIT
500`. -/
theorem C10_search_records_capped (st : Fo76.Store) (sid : Nat) (q : String)
    (rt ep : Option String) :
    (st.search_records sid q rt ep).length ≤ 500 := by
  rw [Fo76.Store.search_records]
  exact List.length_take_le _ _

/-- C9: a well-formed `.dlstrings` file with exactly one directory entry
(id `sid`, offset 0 into the data section) whose data is the u32 length of
the payload followed by the payload parses to exactly the one-entry
mapping; the entry's text is the length-prefixed bytes with trailing NULs
stripped, decoded as UTF-8 with replacement. -/
theorem C9_dlstrings_single (sid dsz : Nat) (payload : List Nat)
    (hsid : sid < 4294967296) (hp : payload.length < 4294967296) :
    Fo76.parse_dlstrings (Fo76.mkDlstrings sid dsz payload) =
      some [(sid, Fo76.utf8DecodeReplaceStr (Fo76.rstripNulls payload))] := by
  have hlen : (Fo76.mkDlstrings sid dsz payload).length = 20 + payload.length := by
    simp [Fo76.mkDlstrings, Fo76.packU32le]
    omega
  have h0 : Fo76.readU32le (Fo76.mkDlstrings sid dsz payload) 0 = 1 := by
    rw [Fo76.mkDlstrings]
    exact Fo76.readU32le_pack_head 1 _ (by norm_num)
  have hd4 : (Fo76.mkDlstrings sid dsz payload).drop 4 =
      Fo76.packU32le dsz ++ (Fo76.packU32le sid ++ (Fo76.packU32le 0 ++
        (Fo76.packU32le payload.length ++ payload))) := by
    rw [Fo76.mkDlstrings]
    exact Fo76.drop4_pack _ _
  have hd8 : (Fo76.mkDlstrings sid dsz payload).drop 8 =
      Fo76.packU32le sid ++ (Fo76.packU32le 0 ++
        (Fo76.packU32le payload.length ++ payload)) := by
    rw [show (8 : Nat) = 4 + 4 from rfl, ← List.drop_drop, hd4]
    exact Fo76.drop4_pack _ _
  have hd12 : (Fo76.mkDlstrings sid dsz payload).drop 12 =
      Fo76.packU32le 0 ++ (Fo76.packU32le payload.length ++ payload) := by
    rw [show (12 : Nat) = 8 + 4 from rfl, ← List.drop_drop, hd8]
    exact Fo76.drop4_pack _ _
  have hd16 : (Fo76.mkDlstrings sid dsz payload).drop 16 =
      Fo76.packU32le payload.length ++ payload := by
    rw [show (16 : Nat) = 12 + 4 from rfl, ← List.drop_drop, hd12]
    exact Fo76.drop4_pack _ _
  have hd20 : (Fo76.mkDlstrings sid dsz payload).drop 20 = payload := by
    rw [show (20 : Nat) = 16 + 4 from rfl, ← List.drop_drop, hd16]
    exact Fo76.drop4_pack _ _
  have h8 : Fo76.readU32le (Fo76.mkDlstrings sid dsz payload) 8 = sid := by
    rw [Fo76.readU32le_drop, hd8]
    exact Fo76.readU32le_pack_head sid _ hsid
  have h12 : Fo76.readU32le (Fo76.mkDlstrings sid dsz payload) 12 = 0 := by
    rw [Fo76.readU32le_drop, hd12]
    exact Fo76.readU32le_pack_head 0 _ (by norm_num)
  have h16 : Fo76.readU32le (Fo76.mkDlstrings sid dsz payload) 16 =
      payload.length := by
    rw [Fo76.readU32le_drop, hd16]
    exact Fo76.readU32le_pack_head payload.length _ hp
  have h20 : Fo76.slice (Fo76.mkDlstrings sid dsz payload) 20 payload.length =
      payload := by
    rw [Fo76.slice, hd20]
    exact List.take_length payload
  rw [Fo76.parse_dlstrings, if_neg (by omega), h0, if_neg (by omega),
    show List.range 1 = [0] from rfl, List.foldl_cons,
    show 8 + 8 * 0 + 4 = 12 from rfl, h12,
    show 8 + 1 * 8 + 0 + 4 = 20 from rfl]
  rw [if_neg (by omega), show 8 + 8 * 0 = 8 from rfl, h8,
    show 8 + 1 * 8 + 0 = 16 from rfl, h16, h20]
  rfl

/-- Witness for C9: the one-entry `.dlstrings` with id 0x1000 and
length-5 data `"Hello"` loads to exactly {0x1000: "Hello"}. -/
theorem C9_dlstrings_single_witness :
    (0x1000 < 4294967296 ∧
      ([72, 101, 108, 108, 111] : List Nat).length < 4294967296) ∧
    Fo76.parse_dlstrings (Fo76.mkDlstrings 0x1000 9 [72, 101, 108, 108, 111]) =
      some [(0x1000, "Hello")] :=
  ⟨⟨by decide, by decide⟩,
    (C9_dlstrings_single 0x1000 9 [72, 101, 108, 108, 111] (by decide)
      (by decide)).trans (by decide)⟩
